import Mathlib

/-!
Shallow embedding of the Shiv Accounts Cloud application (React frontend with
an Express/Razorpay payment server) together with proofs about its ledger
posting, store reducer, seeding, stock updates, payment verification, rate
limiter, LRU cache, and localStorage date-revival logic.

Conventions of the embedding:
- JavaScript numbers are modelled as rationals (`Rat`).
- Timestamps (`Date.now()`, `Date.getTime()`) are modelled as naturals where
  they are only stamped, and as integers where the code subtracts them.
- Optional TypeScript fields (`x?: T`) are modelled as `Option`.
- JavaScript `Map` objects are modelled as association lists in insertion
  order; `Map.set` on an existing key updates in place, otherwise appends,
  matching JS insertion-order semantics.
-/

namespace ShivAccounts

/-- JS numeric amounts (prices, quantities, debits, credits) as rationals. -/
abbrev Amount := Rat

/-- Product.type from src/types/index.ts: 'Goods' | 'Service'. -/
inductive ProductType where
  | goods
  | service
deriving DecidableEq, Repr

/-- Contact.type: 'Customer' | 'Vendor' | 'Both'. -/
inductive ContactType where
  | customer
  | vendor
  | both
deriving DecidableEq, Repr

/-- Account.type: 'Asset' | 'Liability' | 'Income' | 'Expense' | 'Equity'. -/
inductive AccountType where
  | asset
  | liability
  | income
  | expense
  | equity
deriving DecidableEq, Repr

/-- LedgerEntry.referenceType union from src/types/index.ts. -/
inductive RefType where
  | opening
  | invoice
  | bill
  | payment
  | purchaseOrder
  | salesOrder
  | adjustment
deriving DecidableEq, Repr

/-- Tax.computationMethod: 'Percentage' | 'Fixed'. -/
inductive TaxMethod where
  | percentage
  | fixed
deriving DecidableEq, Repr

/-- Tax.appliesOn: 'Sales' | 'Purchase' | 'Both'. -/
inductive TaxAppliesOn where
  | sales
  | purchase
  | both
deriving DecidableEq, Repr

/-- Invoice.status union. -/
inductive InvoiceStatus where
  | draft
  | sent
  | partiallyPaid
  | paid
  | overdue
deriving DecidableEq, Repr

/-- PurchaseOrder.status union. -/
inductive POStatus where
  | draft
  | sent
  | approved
  | completed
  | cancelled
deriving DecidableEq, Repr

/-- VendorBill.status union. -/
inductive BillStatus where
  | unpaid
  | partiallyPaid
  | paid
  | overdue
deriving DecidableEq, Repr

/-- SalesOrder.status union. -/
inductive SOStatus where
  | draft
  | confirmed
  | invoiced
  | delivered
  | cancelled
deriving DecidableEq, Repr

/-- Payment.type: 'Received' | 'Made'. -/
inductive PaymentType where
  | received
  | made
deriving DecidableEq, Repr

/-- Payment.method union. -/
inductive PayMethod where
  | cash
  | bankTransfer
  | cheque
  | online
deriving DecidableEq, Repr

/-- AuditLog.entityType union. -/
inductive EntityType where
  | user
  | contact
  | product
  | account
  | purchaseOrder
  | vendorBill
  | salesOrder
  | invoice
  | payment
  | ledger
deriving DecidableEq, Repr

/-- AuditLog.action union. -/
inductive AuditAction where
  | create
  | update
  | delete
  | post
  | void
deriving DecidableEq, Repr

/-- Contact from src/types/index.ts (createdAt as epoch milliseconds). -/
structure Contact where
  id : String
  name : String
  type : ContactType
  email : String
  mobile : String
  city : String
  state : String
  address : Option String := none
  gstNumber : Option String := none
  createdAt : Nat
deriving DecidableEq, Repr

/-- Product from src/types/index.ts. `stockQty?: number` is optional. -/
structure Product where
  id : String
  name : String
  type : ProductType
  salesPrice : Amount
  purchasePrice : Amount
  taxPercentage : Amount
  hsnCode : String
  category : String
  description : Option String := none
  unit : String
  stockQty : Option Amount := none
  createdAt : Nat
deriving DecidableEq, Repr

/-- Tax from src/types/index.ts. -/
structure Tax where
  id : String
  name : String
  rate : Amount
  computationMethod : TaxMethod
  appliesOn : TaxAppliesOn
  description : Option String := none
deriving DecidableEq, Repr

/-- Account from src/types/index.ts. -/
structure Account where
  id : String
  name : String
  type : AccountType
  parentId : Option String := none
  code : String
  balance : Amount
deriving DecidableEq, Repr

/-- LedgerEntry from src/types/index.ts (date as epoch milliseconds). -/
structure LedgerEntry where
  id : String
  date : Nat
  accountId : String
  accountName : String
  debit : Amount
  credit : Amount
  referenceType : RefType
  referenceId : Option String := none
  description : Option String := none
deriving DecidableEq, Repr

/-- AuditLog from src/types/index.ts. The untyped `changes` record (a map of
field names to `{from?: unknown; to?: unknown}`) is abstracted as its JSON
text. -/
structure AuditLog where
  id : String
  entityType : EntityType
  entityId : String
  action : AuditAction
  userId : Option String := none
  timestamp : Nat
  changes : Option String := none
deriving DecidableEq, Repr

/-- Item line shared by PurchaseOrderItem, BillItem, SalesOrderItem and
InvoiceItem, which are structurally identical in src/types/index.ts. -/
structure LineItem where
  id : String
  productId : String
  productName : String
  quantity : Amount
  unitPrice : Amount
  taxPercentage : Amount
  amount : Amount
deriving DecidableEq, Repr

/-- InvoiceItem from src/types/index.ts. -/
abbrev InvoiceItem := LineItem

/-- BillItem from src/types/index.ts. -/
abbrev BillItem := LineItem

/-- PurchaseOrder from src/types/index.ts. -/
structure PurchaseOrder where
  id : String
  poNumber : String
  vendorId : String
  vendorName : String
  date : Nat
  dueDate : Nat
  items : List LineItem
  subtotal : Amount
  taxAmount : Amount
  total : Amount
  status : POStatus
  notes : Option String := none
deriving DecidableEq, Repr

/-- VendorBill from src/types/index.ts. -/
structure VendorBill where
  id : String
  billNumber : String
  vendorId : String
  vendorName : String
  date : Nat
  dueDate : Nat
  amount : Amount
  paidAmount : Amount
  status : BillStatus
  items : List BillItem
  notes : Option String := none
deriving DecidableEq, Repr

/-- SalesOrder from src/types/index.ts. -/
structure SalesOrder where
  id : String
  soNumber : String
  customerId : String
  customerName : String
  date : Nat
  items : List LineItem
  subtotal : Amount
  taxAmount : Amount
  total : Amount
  status : SOStatus
deriving DecidableEq, Repr

/-- Invoice from src/types/index.ts. -/
structure Invoice where
  id : String
  invoiceNumber : String
  customerId : String
  customerName : String
  date : Nat
  dueDate : Nat
  items : List InvoiceItem
  subtotal : Amount
  taxAmount : Amount
  total : Amount
  paidAmount : Amount
  status : InvoiceStatus
  notes : Option String := none
deriving DecidableEq, Repr

/-- Payment from src/types/index.ts. -/
structure Payment where
  id : String
  type : PaymentType
  amount : Amount
  date : Nat
  method : PayMethod
  reference : String
  contactId : String
  contactName : String
  invoiceId : Option String := none
  billId : Option String := none
  notes : Option String := none
deriving DecidableEq, Repr

/-- AppState from src/store/AppStore.tsx. -/
structure AppState where
  contacts : List Contact
  products : List Product
  taxes : List Tax
  accounts : List Account
  purchaseOrders : List PurchaseOrder
  invoices : List Invoice
  salesOrders : List SalesOrder
  vendorBills : List VendorBill
  payments : List Payment
  ledger : List LedgerEntry
  audit : List AuditLog
deriving DecidableEq, Repr

/-- Partial<AppState>: the payload of the 'seed' action. A `none` field is a
key absent from the partial object, so the JS spread keeps the old value. -/
structure SeedPayload where
  contacts : Option (List Contact) := none
  products : Option (List Product) := none
  taxes : Option (List Tax) := none
  accounts : Option (List Account) := none
  purchaseOrders : Option (List PurchaseOrder) := none
  invoices : Option (List Invoice) := none
  salesOrders : Option (List SalesOrder) := none
  vendorBills : Option (List VendorBill) := none
  payments : Option (List Payment) := none
  ledger : Option (List LedgerEntry) := none
  audit : Option (List AuditLog) := none
deriving DecidableEq, Repr

/-- AppAction from src/store/AppStore.tsx: one constructor per action type. -/
inductive AppAction where
  | seed (payload : SeedPayload)
  | contactsSet (payload : List Contact)
  | productsSet (payload : List Product)
  | taxesSet (payload : List Tax)
  | accountsSet (payload : List Account)
  | purchaseOrdersSet (payload : List PurchaseOrder)
  | invoicesSet (payload : List Invoice)
  | salesOrdersSet (payload : List SalesOrder)
  | vendorBillsSet (payload : List VendorBill)
  | paymentsSet (payload : List Payment)
  | ledgerAppend (payload : List LedgerEntry)
  | ledgerSet (payload : List LedgerEntry)
  | auditAppend (payload : AuditLog)
deriving DecidableEq, Repr

/-- The reducer of src/store/AppStore.tsx. 'seed' is the JS spread
`{...state, ...action.payload}`; 'ledger/append' appends the payload at the
end of the current ledger; 'audit/append' appends a single entry. -/
def reducer (state : AppState) (action : AppAction) : AppState :=
  match action with
  | .seed p =>
      { contacts := p.contacts.getD state.contacts
        products := p.products.getD state.products
        taxes := p.taxes.getD state.taxes
        accounts := p.accounts.getD state.accounts
        purchaseOrders := p.purchaseOrders.getD state.purchaseOrders
        invoices := p.invoices.getD state.invoices
        salesOrders := p.salesOrders.getD state.salesOrders
        vendorBills := p.vendorBills.getD state.vendorBills
        payments := p.payments.getD state.payments
        ledger := p.ledger.getD state.ledger
        audit := p.audit.getD state.audit }
  | .contactsSet l => { state with contacts := l }
  | .productsSet l => { state with products := l }
  | .taxesSet l => { state with taxes := l }
  | .accountsSet l => { state with accounts := l }
  | .purchaseOrdersSet l => { state with purchaseOrders := l }
  | .invoicesSet l => { state with invoices := l }
  | .salesOrdersSet l => { state with salesOrders := l }
  | .vendorBillsSet l => { state with vendorBills := l }
  | .paymentsSet l => { state with payments := l }
  | .ledgerAppend l => { state with ledger := state.ledger ++ l }
  | .ledgerSet l => { state with ledger := l }
  | .auditAppend a => { state with audit := state.audit ++ [a] }

/-- Actions whose reducer case can write the ledger field: 'seed',
'ledger/append' and 'ledger/set'. -/
def AppAction.mayTouchLedger : AppAction → Bool
  | .seed _ => true
  | .ledgerAppend _ => true
  | .ledgerSet _ => true
  | _ => false

/-- Input row of postLedgerEntries: `Pick<LedgerEntry, 'accountId' |
'accountName' | 'debit' | 'credit'> & Partial<LedgerEntry>`. The four
required fields plus optional overrides for every stamped field. -/
structure EntryInput where
  accountId : String
  accountName : String
  debit : Amount
  credit : Amount
  id : Option String := none
  date : Option Nat := none
  referenceType : Option RefType := none
  referenceId : Option String := none
  description : Option String := none
deriving DecidableEq, Repr

/-- The `opts` argument of postLedgerEntries. -/
structure PostOpts where
  referenceType : Option RefType := none
  referenceId : Option String := none
  description : Option String := none
deriving DecidableEq, Repr

/-- postLedgerEntries from src/store/AppStore.tsx. `now` is
`new Date()` (epoch milliseconds). The JS object literal stamps defaults
(`id`, `date`, `debit: 0`, `credit: 0`, `referenceType`, `referenceId`,
`description`) and then spreads `...e` on top, so every field present in the
input row overrides the corresponding default. -/
def postLedgerEntries (now : Nat) (entries : List EntryInput)
    (opts : Option PostOpts) : List LedgerEntry :=
  entries.enum.map fun p =>
    { id := p.2.id.getD (toString now ++ "-" ++ toString p.1)
      date := p.2.date.getD now
      accountId := p.2.accountId
      accountName := p.2.accountName
      debit := p.2.debit
      credit := p.2.credit
      referenceType :=
        p.2.referenceType.getD ((opts.bind PostOpts.referenceType).getD RefType.adjustment)
      referenceId := p.2.referenceId.orElse (fun _ => opts.bind PostOpts.referenceId)
      description := p.2.description.orElse (fun _ => opts.bind PostOpts.description) }

/-- Revenue pair of postInvoice (src/pages/transactions/Invoices.tsx):
debit Accounts Receivable by the invoice total, credit the Income account. -/
def invoiceRevenueEntries (now : Nat) (ar sales : Account) (inv : Invoice) :
    List LedgerEntry :=
  postLedgerEntries now
    [ { accountId := ar.id, accountName := ar.name, debit := inv.total, credit := 0 }
    , { accountId := sales.id, accountName := sales.name, debit := 0, credit := inv.total } ]
    (some { referenceType := some RefType.invoice
            referenceId := some inv.id
            description := some ("Invoice " ++ inv.invoiceNumber ++ " - " ++ inv.customerName) })

/-- Total cost of an invoice in postInvoice: for each item, the product's
purchasePrice (0 when the product is not found) times the item quantity,
accumulated by reduce from 0. -/
def invoiceTotalCost (products : List Product) (inv : Invoice) : Amount :=
  inv.items.foldl
    (fun sum it =>
      sum + (((products.find? (fun p => p.id == it.productId)).map Product.purchasePrice).getD 0)
              * it.quantity)
    0

/-- COGS pair of postInvoice: debit Cost of Goods Sold, credit Inventory by
the invoice's total cost. -/
def invoiceCogsEntries (now : Nat) (cogs inventory : Account) (inv : Invoice)
    (products : List Product) : List LedgerEntry :=
  postLedgerEntries now
    [ { accountId := cogs.id, accountName := cogs.name
        debit := invoiceTotalCost products inv, credit := 0 }
    , { accountId := inventory.id, accountName := inventory.name
        debit := 0, credit := invoiceTotalCost products inv } ]
    (some { referenceType := some RefType.invoice
            referenceId := some inv.id
            description := some ("COGS for " ++ inv.invoiceNumber) })

/-- The single 'ledger/append' payload dispatched by postInvoice:
`[...entries, ...cogsEntries]`. -/
def invoicePostBatch (now : Nat) (ar sales cogs inventory : Account)
    (inv : Invoice) (products : List Product) : List LedgerEntry :=
  invoiceRevenueEntries now ar sales inv ++ invoiceCogsEntries now cogs inventory inv products

/-- Ledger pair for a payment of type 'Received' in savePayment
(src/pages/transactions/Payments.tsx): debit Cash, credit Accounts
Receivable by the payment amount. -/
def paymentReceivedEntries (now : Nat) (cash ar : Account) (pay : Payment) :
    List LedgerEntry :=
  postLedgerEntries now
    [ { accountId := cash.id, accountName := cash.name, debit := pay.amount, credit := 0 }
    , { accountId := ar.id, accountName := ar.name, debit := 0, credit := pay.amount } ]
    (some { referenceType := some RefType.payment
            referenceId := some pay.id
            description := some ("Payment received from " ++ pay.contactName) })

/-- Ledger pair for a payment of type 'Made' in savePayment: debit Accounts
Payable, credit Cash by the payment amount. -/
def paymentMadeEntries (now : Nat) (ap cash : Account) (pay : Payment) :
    List LedgerEntry :=
  postLedgerEntries now
    [ { accountId := ap.id, accountName := ap.name, debit := pay.amount, credit := 0 }
    , { accountId := cash.id, accountName := cash.name, debit := 0, credit := pay.amount } ]
    (some { referenceType := some RefType.payment
            referenceId := some pay.id
            description := some ("Payment made to " ++ pay.contactName) })

/-- Ledger pair appended by the Razorpay success handler in
src/pages/transactions/Invoices.tsx: debit Cash, credit Accounts Receivable
by the remaining amount of the invoice. -/
def razorpayPaymentEntries (now : Nat) (cash ar : Account) (paymentId : String)
    (inv : Invoice) (remainingAmount : Amount) : List LedgerEntry :=
  postLedgerEntries now
    [ { accountId := cash.id, accountName := cash.name, debit := remainingAmount, credit := 0 }
    , { accountId := ar.id, accountName := ar.name, debit := 0, credit := remainingAmount } ]
    (some { referenceType := some RefType.payment
            referenceId := some paymentId
            description := some ("Payment received for " ++ inv.invoiceNumber ++ " via Razorpay") })

/-- Ledger pair of postToLedgerAndInventory (vendor bills page): debit
Inventory, credit Accounts Payable by the bill amount. -/
def billPostEntries (now : Nat) (inventory ap : Account) (bill : VendorBill) :
    List LedgerEntry :=
  postLedgerEntries now
    [ { accountId := inventory.id, accountName := inventory.name
        debit := bill.amount, credit := 0 }
    , { accountId := ap.id, accountName := ap.name, debit := 0, credit := bill.amount } ]
    (some { referenceType := some RefType.bill
            referenceId := some bill.id
            description := some ("Bill " ++ bill.billNumber ++ " - " ++ bill.vendorName) })

/-- Sum of the debit fields of a list of ledger entries. -/
def sumDebits (l : List LedgerEntry) : Amount := (l.map LedgerEntry.debit).sum

/-- Sum of the credit fields of a list of ledger entries. -/
def sumCredits (l : List LedgerEntry) : Amount := (l.map LedgerEntry.credit).sum

/-- A tiny concrete application state used to instantiate theorems with
hypotheses at concrete inputs. -/
def demoState : AppState :=
  { contacts := [], products := [], taxes := [], accounts := []
    purchaseOrders := [], invoices := [], salesOrders := [], vendorBills := []
    payments := []
    ledger := [ { id := "L0", date := 0, accountId := "A", accountName := "Cash"
                  debit := 5, credit := 0, referenceType := RefType.opening } ]
    audit := [] }

/-- C1: every batch of ledger entries dispatched in a single 'ledger/append'
action by a posting flow is balanced double-entry: the sum of the debit
fields equals the sum of the credit fields for the invoice posting batch
(revenue pair plus COGS/inventory pair), for a payment of type 'Received',
for a payment of type 'Made', for the Razorpay success handler's pair, and
for a posted vendor bill. -/
theorem ledger_posting_batches_balanced
    (now : Nat) (ar sales cogs inventory cash ap : Account) (inv : Invoice)
    (products : List Product) (bill : VendorBill) (pay : Payment)
    (pid : String) (remaining : Amount) :
    sumDebits (invoicePostBatch now ar sales cogs inventory inv products)
      = sumCredits (invoicePostBatch now ar sales cogs inventory inv products) ∧
    sumDebits (paymentReceivedEntries now cash ar pay)
      = sumCredits (paymentReceivedEntries now cash ar pay) ∧
    sumDebits (paymentMadeEntries now ap cash pay)
      = sumCredits (paymentMadeEntries now ap cash pay) ∧
    sumDebits (razorpayPaymentEntries now cash ar pid inv remaining)
      = sumCredits (razorpayPaymentEntries now cash ar pid inv remaining) ∧
    sumDebits (billPostEntries now inventory ap bill)
      = sumCredits (billPostEntries now inventory ap bill) := by
  refine ⟨?_, ?_, ?_, ?_, ?_⟩ <;>
    simp [sumDebits, sumCredits, invoicePostBatch, invoiceRevenueEntries,
      invoiceCogsEntries, paymentReceivedEntries, paymentMadeEntries,
      razorpayPaymentEntries, billPostEntries, postLedgerEntries,
      List.enum, List.enumFrom]

/-- C3: postLedgerEntries returns a list of the same length and order; the
i-th output keeps the i-th input's accountId, accountName, debit and credit
exactly; a field the input does not supply is stamped with the defaults
(id = "<current-time-ms>-<index>", date = now, referenceType = the given
opts.referenceType or 'Adjustment' when none is given, referenceId and
description taken from opts); a field present in the input overrides the
default. -/
theorem postLedgerEntries_spec
    (now : Nat) (entries : List EntryInput) (opts : Option PostOpts) :
    (postLedgerEntries now entries opts).length = entries.length ∧
    ∀ i (h : i < entries.length) (h2 : i < (postLedgerEntries now entries opts).length),
      (((postLedgerEntries now entries opts).get ⟨i, h2⟩).accountId
          = (entries.get ⟨i, h⟩).accountId ∧
        ((postLedgerEntries now entries opts).get ⟨i, h2⟩).accountName
          = (entries.get ⟨i, h⟩).accountName ∧
        ((postLedgerEntries now entries opts).get ⟨i, h2⟩).debit
          = (entries.get ⟨i, h⟩).debit ∧
        ((postLedgerEntries now entries opts).get ⟨i, h2⟩).credit
          = (entries.get ⟨i, h⟩).credit) ∧
      (((entries.get ⟨i, h⟩).id = none →
          ((postLedgerEntries now entries opts).get ⟨i, h2⟩).id
            = toString now ++ "-" ++ toString i) ∧
        ∀ v, (entries.get ⟨i, h⟩).id = some v →
          ((postLedgerEntries now entries opts).get ⟨i, h2⟩).id = v) ∧
      (((entries.get ⟨i, h⟩).date = none →
          ((postLedgerEntries now entries opts).get ⟨i, h2⟩).date = now) ∧
        ∀ v, (entries.get ⟨i, h⟩).date = some v →
          ((postLedgerEntries now entries opts).get ⟨i, h2⟩).date = v) ∧
      (((entries.get ⟨i, h⟩).referenceType = none →
          ((postLedgerEntries now entries opts).get ⟨i, h2⟩).referenceType
            = (opts.bind PostOpts.referenceType).getD RefType.adjustment) ∧
        ∀ v, (entries.get ⟨i, h⟩).referenceType = some v →
          ((postLedgerEntries now entries opts).get ⟨i, h2⟩).referenceType = v) ∧
      (((entries.get ⟨i, h⟩).referenceId = none →
          ((postLedgerEntries now entries opts).get ⟨i, h2⟩).referenceId
            = opts.bind PostOpts.referenceId) ∧
        ∀ v, (entries.get ⟨i, h⟩).referenceId = some v →
          ((postLedgerEntries now entries opts).get ⟨i, h2⟩).referenceId = some v) ∧
      (((entries.get ⟨i, h⟩).description = none →
          ((postLedgerEntries now entries opts).get ⟨i, h2⟩).description
            = opts.bind PostOpts.description) ∧
        ∀ v, (entries.get ⟨i, h⟩).description = some v →
          ((postLedgerEntries now entries opts).get ⟨i, h2⟩).description = some v) := by
  constructor
  · simp [postLedgerEntries]
  · intro i h h2
    have hget : (postLedgerEntries now entries opts).get ⟨i, h2⟩ =
        (fun p : Nat × EntryInput =>
          ({ id := p.2.id.getD (toString now ++ "-" ++ toString p.1)
             date := p.2.date.getD now
             accountId := p.2.accountId
             accountName := p.2.accountName
             debit := p.2.debit
             credit := p.2.credit
             referenceType :=
               p.2.referenceType.getD
                 ((opts.bind PostOpts.referenceType).getD RefType.adjustment)
             referenceId := p.2.referenceId.orElse (fun _ => opts.bind PostOpts.referenceId)
             description := p.2.description.orElse (fun _ => opts.bind PostOpts.description) }
            : LedgerEntry)) (i, entries.get ⟨i, h⟩) := by
      simp [postLedgerEntries]
    rw [hget]
    refine ⟨⟨rfl, rfl, rfl, rfl⟩, ?_, ?_, ?_, ?_, ?_⟩ <;>
      constructor <;>
      first
        | (intro hnone
           simp only [List.get_eq_getElem] at hnone
           simp [hnone, Option.orElse])
        | (intro v hv
           simp only [List.get_eq_getElem] at hv
           simp [hv, Option.orElse])

/-- Witness for C3 at a concrete input: one entry with no optional fields,
posted at time 7 with no opts. -/
theorem postLedgerEntries_spec_witness :
    (0 : Nat) < [({ accountId := "A1", accountName := "Cash", debit := 3, credit := 0 }
        : EntryInput)].length ∧
    ((postLedgerEntries 7 [{ accountId := "A1", accountName := "Cash", debit := 3, credit := 0 }]
        none).get ⟨0, by decide⟩).id = "7-0" := by
  have h := postLedgerEntries_spec 7
    [{ accountId := "A1", accountName := "Cash", debit := 3, credit := 0 }] none
  exact ⟨by decide, ((((h.2 0 (by decide) (by decide)).2).1).1) rfl⟩

/-- C10: the 'ledger/append' action appends the payload entries at the end of
the previous ledger and leaves every other field of the state unchanged, and
no action other than 'ledger/append', 'ledger/set' and 'seed' modifies the
ledger field. -/
theorem reducer_ledger_append_frame (s : AppState) (es : List LedgerEntry) :
    ((reducer s (.ledgerAppend es)).ledger = s.ledger ++ es ∧
      (reducer s (.ledgerAppend es)).contacts = s.contacts ∧
      (reducer s (.ledgerAppend es)).products = s.products ∧
      (reducer s (.ledgerAppend es)).taxes = s.taxes ∧
      (reducer s (.ledgerAppend es)).accounts = s.accounts ∧
      (reducer s (.ledgerAppend es)).purchaseOrders = s.purchaseOrders ∧
      (reducer s (.ledgerAppend es)).invoices = s.invoices ∧
      (reducer s (.ledgerAppend es)).salesOrders = s.salesOrders ∧
      (reducer s (.ledgerAppend es)).vendorBills = s.vendorBills ∧
      (reducer s (.ledgerAppend es)).payments = s.payments ∧
      (reducer s (.ledgerAppend es)).audit = s.audit) ∧
    ∀ a : AppAction, a.mayTouchLedger = false → (reducer s a).ledger = s.ledger := by
  refine ⟨⟨rfl, rfl, rfl, rfl, rfl, rfl, rfl, rfl, rfl, rfl, rfl⟩, ?_⟩
  intro a ha
  cases a <;> simp [reducer] <;> simp [AppAction.mayTouchLedger] at ha

/-- Witness for C10 at a concrete input: 'contacts/set' does not touch the
ledger of the demo state. -/
theorem reducer_ledger_append_frame_witness :
    (AppAction.contactsSet []).mayTouchLedger = false ∧
    (reducer demoState (AppAction.contactsSet [])).ledger = demoState.ledger := by
  have h := reducer_ledger_append_frame demoState []
  exact ⟨by decide, h.2 (AppAction.contactsSet []) (by decide)⟩

/-- Stock reduction of postInvoice (src/pages/transactions/Invoices.tsx):
for each product, sum the quantities of the invoice items that reference it;
when that sum is positive and the product is of type 'Goods', clamp the new
stock at `Math.max(0, (stockQty ?? 0) - outQty)`; otherwise keep the product
unchanged. -/
def stockAfterInvoice (inv : Invoice) (products : List Product) : List Product :=
  products.map fun p =>
    let outQty := ((inv.items.filter (fun i => i.productId == p.id)).map LineItem.quantity).sum
    if 0 < outQty ∧ p.type = ProductType.goods then
      { p with stockQty := some (max 0 (p.stockQty.getD 0 - outQty)) }
    else p

/-- A concrete Goods product with stock 3 used for the stock-update claim. -/
def cexProduct : Product :=
  { id := "P1", name := "Chair", type := ProductType.goods, salesPrice := 10
    purchasePrice := 6, taxPercentage := 0, hsnCode := "9401", category := "Seating"
    unit := "pc", stockQty := some 3, createdAt := 0 }

/-- A concrete invoice whose single item references cexProduct with
quantity -2 (the quantity field is parsed from free-form user input with
parseFloat, so negative quantities reach postInvoice). -/
def cexInvoice : Invoice :=
  { id := "INV-1", invoiceNumber := "INV-0001", customerId := "C1"
    customerName := "Cust", date := 0, dueDate := 0
    items := [ { id := "i1", productId := "P1", productName := "Chair"
                 quantity := -2, unitPrice := 10, taxPercentage := 0, amount := -20 } ]
    subtotal := -20, taxAmount := 0, total := -20, paidAmount := 0
    status := InvoiceStatus.sent }

/-- C8 counterexample: cexProduct is of type 'Goods' and appears on
cexInvoice with total invoiced quantity -2, yet posting leaves its stock at
3, while the claimed formula max(0, old - total) gives 5. The guard
`outQty > 0` in the source skips every product whose total invoiced
quantity is not positive. -/
theorem stock_update_claim_counterexample :
    cexProduct.type = ProductType.goods ∧
    ((cexInvoice.items.filter (fun i => i.productId == cexProduct.id)).map
        LineItem.quantity).sum = -2 ∧
    (stockAfterInvoice cexInvoice [cexProduct]).map Product.stockQty = [some 3] ∧
    max 0 (cexProduct.stockQty.getD 0 - (-2)) = (5 : Amount) ∧
    (stockAfterInvoice cexInvoice [cexProduct]).map Product.stockQty
      ≠ [some (max 0 (cexProduct.stockQty.getD 0 - (-2)))] := by
  refine ⟨rfl, ?_, ?_, ?_, ?_⟩ <;>
    norm_num [stockAfterInvoice, cexInvoice, cexProduct, max_def]

/-- C8 amended: for every product of type 'Goods' whose total invoiced
quantity is positive, the new stockQty equals max(0, (old stockQty or 0) -
total invoiced quantity), which is never negative; every other product
(not on the invoice, total invoiced quantity not positive, or type not
'Goods') is unchanged. -/
theorem stock_update_amended (inv : Invoice) (products : List Product)
    (i : Nat) (h : i < products.length)
    (h2 : i < (stockAfterInvoice inv products).length) :
    (((products.get ⟨i, h⟩).type = ProductType.goods ∧
        0 < ((inv.items.filter
            (fun it => it.productId == (products.get ⟨i, h⟩).id)).map
              LineItem.quantity).sum) →
      ((stockAfterInvoice inv products).get ⟨i, h2⟩).stockQty
          = some (max 0 ((products.get ⟨i, h⟩).stockQty.getD 0
              - ((inv.items.filter
                  (fun it => it.productId == (products.get ⟨i, h⟩).id)).map
                    LineItem.quantity).sum)) ∧
        0 ≤ ((stockAfterInvoice inv products).get ⟨i, h2⟩).stockQty.getD 0) ∧
    (¬ ((products.get ⟨i, h⟩).type = ProductType.goods ∧
        0 < ((inv.items.filter
            (fun it => it.productId == (products.get ⟨i, h⟩).id)).map
              LineItem.quantity).sum) →
      (stockAfterInvoice inv products).get ⟨i, h2⟩ = products.get ⟨i, h⟩) := by
  have hget : (stockAfterInvoice inv products).get ⟨i, h2⟩ =
      (if 0 < ((inv.items.filter
            (fun it => it.productId == (products.get ⟨i, h⟩).id)).map
              LineItem.quantity).sum ∧
          (products.get ⟨i, h⟩).type = ProductType.goods then
        { products.get ⟨i, h⟩ with
          stockQty := some (max 0 ((products.get ⟨i, h⟩).stockQty.getD 0
              - ((inv.items.filter
                  (fun it => it.productId == (products.get ⟨i, h⟩).id)).map
                    LineItem.quantity).sum)) }
      else products.get ⟨i, h⟩) := by
    simp [stockAfterInvoice]
  rw [hget]
  constructor
  · intro hcond
    rw [if_pos (And.intro hcond.2 hcond.1)]
    exact ⟨rfl, by simp [le_max_left]⟩
  · intro hcond
    rw [if_neg (fun hc => hcond (And.intro hc.2 hc.1))]

/-- A concrete invoice selling 2 units of cexProduct, used as the witness
input for the amended stock-update claim. -/
def wInvoice : Invoice :=
  { cexInvoice with
    items := [ { id := "i1", productId := "P1", productName := "Chair"
                 quantity := 2, unitPrice := 10, taxPercentage := 0, amount := 20 } ]
    subtotal := 20, taxAmount := 0, total := 20 }

/-- Witness for C8 amended at a concrete input: a Goods product with stock 3
invoiced with quantity 2 ends with stock max(0, 3 - 2). -/
theorem stock_update_amended_witness :
    (([cexProduct].get ⟨0, by decide⟩).type = ProductType.goods ∧
      (0:Amount) < ((wInvoice.items.filter
          (fun it => it.productId == ([cexProduct].get ⟨0, by decide⟩).id)).map
            LineItem.quantity).sum) ∧
    ((stockAfterInvoice wInvoice [cexProduct]).get
        ⟨0, by simp [stockAfterInvoice]⟩).stockQty
      = some (max 0 (([cexProduct].get ⟨0, by decide⟩).stockQty.getD 0
          - ((wInvoice.items.filter
              (fun it => it.productId == ([cexProduct].get ⟨0, by decide⟩).id)).map
                LineItem.quantity).sum)) := by
  have hc : ([cexProduct].get ⟨0, by decide⟩).type = ProductType.goods ∧
      (0:Amount) < ((wInvoice.items.filter
          (fun it => it.productId == ([cexProduct].get ⟨0, by decide⟩).id)).map
            LineItem.quantity).sum := by
    refine ⟨rfl, ?_⟩
    norm_num [wInvoice, cexInvoice, cexProduct]
  have h := stock_update_amended wInvoice [cexProduct] 0 (by decide)
    (by simp [stockAfterInvoice])
  exact ⟨hc, (h.1 hc).1⟩

/-- The ten collections returned by dbLoadAll (src/lib/db.ts) when every
Supabase query succeeds. -/
structure DbData where
  contacts : List Contact
  products : List Product
  taxes : List Tax
  accounts : List Account
  purchaseOrders : List PurchaseOrder
  invoices : List Invoice
  salesOrders : List SalesOrder
  vendorBills : List VendorBill
  payments : List Payment
  ledger : List LedgerEntry
deriving DecidableEq, Repr

/-- The six mock collections imported from `@/data/mockData` by the init
effect. The mock data module is not part of the sources here, so its values
are taken as parameters; the claims do not depend on their contents. -/
structure MockData where
  contacts : List Contact
  products : List Product
  taxes : List Tax
  accounts : List Account
  purchaseOrders : List PurchaseOrder
  invoices : List Invoice
deriving DecidableEq, Repr

/-- Normalisation applied to products when seeding from Supabase or from the
mock data: `stockQty: p.type === 'Goods' ? (p.stockQty ?? 0) : 0`. -/
def normalizeStock (ps : List Product) : List Product :=
  ps.map fun p =>
    { p with stockQty := if p.type = ProductType.goods
        then some (p.stockQty.getD 0) else some 0 }

/-- Seed payload for the localStorage branch: the parsed snapshot is
dispatched whole (it has every field of AppState). -/
def localSeedPayload (s : AppState) : SeedPayload :=
  { contacts := some s.contacts, products := some s.products
    taxes := some s.taxes, accounts := some s.accounts
    purchaseOrders := some s.purchaseOrders, invoices := some s.invoices
    salesOrders := some s.salesOrders, vendorBills := some s.vendorBills
    payments := some s.payments, ledger := some s.ledger, audit := some s.audit }

/-- Seed payload for the Supabase branch: `{...data, products, audit: []}`
with products normalised. -/
def dbSeedPayload (d : DbData) : SeedPayload :=
  { contacts := some d.contacts, products := some (normalizeStock d.products)
    taxes := some d.taxes, accounts := some d.accounts
    purchaseOrders := some d.purchaseOrders, invoices := some d.invoices
    salesOrders := some d.salesOrders, vendorBills := some d.vendorBills
    payments := some d.payments, ledger := some d.ledger, audit := some [] }

/-- Seed payload for the mock branch: the six mock collections (products
normalised) and empty salesOrders, vendorBills, payments, ledger, audit. -/
def mockSeedPayload (m : MockData) : SeedPayload :=
  { contacts := some m.contacts, products := some (normalizeStock m.products)
    taxes := some m.taxes, accounts := some m.accounts
    purchaseOrders := some m.purchaseOrders, invoices := some m.invoices
    salesOrders := some [], vendorBills := some [], payments := some []
    ledger := some [], audit := some [] }

/-- Result of the init effect: the dispatched seed payload together with
whether dbLoadAll was invoked against the external backend. -/
structure InitResult where
  payload : SeedPayload
  queriedDb : Bool
deriving DecidableEq, Repr

/-- The init effect of AppStoreProvider (src/store/AppStore.tsx). `raw` is
the parsed-and-revived localStorage snapshot (none when the key is absent);
`dbCall` is the outcome of awaiting dbLoadAll (`.error` when it throws,
`.ok none` when it returns null); `mock` is the bundled mock data. -/
def initStore (raw : Option AppState) (supabaseConfigured : Bool)
    (dbCall : Except Unit (Option DbData)) (mock : MockData) : InitResult :=
  match raw with
  | some s => ⟨localSeedPayload s, false⟩
  | none =>
    if supabaseConfigured then
      match dbCall with
      | .ok (some d) => ⟨dbSeedPayload d, true⟩
      | .ok none => ⟨mockSeedPayload mock, true⟩
      | .error _ => ⟨mockSeedPayload mock, true⟩
    else ⟨mockSeedPayload mock, false⟩

/-- C4: the store seeds from exactly one of three sources with this
precedence: a localStorage snapshot is dispatched as-is without querying the
backend (the result does not depend on the dbLoadAll outcome at all);
otherwise, when Supabase is configured and dbLoadAll succeeds with data, the
backend collections are dispatched with every product's stockQty normalised
(existing value or 0 for 'Goods', forced 0 otherwise); otherwise the mock
data is dispatched with the same normalisation and empty transaction
collections. -/
theorem initStore_seed_precedence (raw : Option AppState)
    (cfg : Bool) (dbCall : Except Unit (Option DbData)) (mock : MockData) :
    (∀ s, raw = some s →
      (∀ dbCall2, initStore raw cfg dbCall mock = initStore raw cfg dbCall2 mock) ∧
      (initStore raw cfg dbCall mock).queriedDb = false ∧
      (initStore raw cfg dbCall mock).payload.contacts = some s.contacts ∧
      (initStore raw cfg dbCall mock).payload.products = some s.products ∧
      (initStore raw cfg dbCall mock).payload.taxes = some s.taxes ∧
      (initStore raw cfg dbCall mock).payload.accounts = some s.accounts ∧
      (initStore raw cfg dbCall mock).payload.purchaseOrders = some s.purchaseOrders ∧
      (initStore raw cfg dbCall mock).payload.invoices = some s.invoices ∧
      (initStore raw cfg dbCall mock).payload.salesOrders = some s.salesOrders ∧
      (initStore raw cfg dbCall mock).payload.vendorBills = some s.vendorBills ∧
      (initStore raw cfg dbCall mock).payload.payments = some s.payments ∧
      (initStore raw cfg dbCall mock).payload.ledger = some s.ledger ∧
      (initStore raw cfg dbCall mock).payload.audit = some s.audit) ∧
    (raw = none → cfg = true → ∀ d, dbCall = .ok (some d) →
      (initStore raw cfg dbCall mock).queriedDb = true ∧
      (initStore raw cfg dbCall mock).payload.contacts = some d.contacts ∧
      (initStore raw cfg dbCall mock).payload.products
        = some (d.products.map fun p =>
            { p with stockQty := if p.type = ProductType.goods
                then some (p.stockQty.getD 0) else some 0 }) ∧
      (initStore raw cfg dbCall mock).payload.taxes = some d.taxes ∧
      (initStore raw cfg dbCall mock).payload.accounts = some d.accounts ∧
      (initStore raw cfg dbCall mock).payload.purchaseOrders = some d.purchaseOrders ∧
      (initStore raw cfg dbCall mock).payload.invoices = some d.invoices ∧
      (initStore raw cfg dbCall mock).payload.salesOrders = some d.salesOrders ∧
      (initStore raw cfg dbCall mock).payload.vendorBills = some d.vendorBills ∧
      (initStore raw cfg dbCall mock).payload.payments = some d.payments ∧
      (initStore raw cfg dbCall mock).payload.ledger = some d.ledger ∧
      (initStore raw cfg dbCall mock).payload.audit = some []) ∧
    (raw = none → cfg = true → (dbCall = .ok none ∨ dbCall = .error ()) →
      (initStore raw cfg dbCall mock).queriedDb = true ∧
      (initStore raw cfg dbCall mock).payload.contacts = some mock.contacts ∧
      (initStore raw cfg dbCall mock).payload.products
        = some (mock.products.map fun p =>
            { p with stockQty := if p.type = ProductType.goods
                then some (p.stockQty.getD 0) else some 0 }) ∧
      (initStore raw cfg dbCall mock).payload.ledger = some [] ∧
      (initStore raw cfg dbCall mock).payload.audit = some []) ∧
    (raw = none → cfg = false →
      (initStore raw cfg dbCall mock).queriedDb = false ∧
      (initStore raw cfg dbCall mock).payload.contacts = some mock.contacts ∧
      (initStore raw cfg dbCall mock).payload.products
        = some (mock.products.map fun p =>
            { p with stockQty := if p.type = ProductType.goods
                then some (p.stockQty.getD 0) else some 0 }) ∧
      (initStore raw cfg dbCall mock).payload.ledger = some [] ∧
      (initStore raw cfg dbCall mock).payload.audit = some []) := by
  refine ⟨?_, ?_, ?_, ?_⟩
  · intro s hs
    subst hs
    exact ⟨fun _ => rfl, rfl, rfl, rfl, rfl, rfl, rfl, rfl, rfl, rfl, rfl, rfl, rfl⟩
  · intro hraw hcfg d hdb
    subst hraw; subst hcfg; subst hdb
    exact ⟨rfl, rfl, rfl, rfl, rfl, rfl, rfl, rfl, rfl, rfl, rfl, rfl⟩
  · intro hraw hcfg hdb
    subst hraw; subst hcfg
    rcases hdb with h | h <;> subst h <;>
      exact ⟨rfl, rfl, rfl, rfl, rfl⟩
  · intro hraw hcfg
    subst hraw; subst hcfg
    exact ⟨rfl, rfl, rfl, rfl, rfl⟩

/-- An empty mock-data bundle for concrete instantiation. -/
def demoMock : MockData :=
  { contacts := [], products := [cexProduct], taxes := [], accounts := []
    purchaseOrders := [], invoices := [] }

/-- Witness for C4 at a concrete input: with no snapshot and Supabase not
configured, the store seeds from the mock data with normalised stock and
does not query the backend. -/
theorem initStore_seed_precedence_witness :
    (none : Option AppState) = none ∧ false = false ∧
    (initStore none false (Except.error ()) demoMock).queriedDb = false ∧
    (initStore none false (Except.error ()) demoMock).payload.contacts
      = some demoMock.contacts := by
  have h := initStore_seed_precedence none false (Except.error ()) demoMock
  have h4 := h.2.2.2 rfl rfl
  exact ⟨rfl, rfl, h4.1, h4.2.1⟩

/-- An order stored by POST /api/payment/create-order in the server's
in-memory `orders` array (src backend server.js). `amount` is in paise. -/
structure StoredOrder where
  id : String
  amount : Amount
  currency : String
  receipt : String
  status : String
  createdAt : Nat
deriving DecidableEq, Repr

/-- A payment record pushed onto the server's in-memory `payments` array by
a successful verification. -/
structure ServerPayment where
  id : String
  razorpayOrderId : String
  razorpayPaymentId : String
  razorpaySignature : String
  amount : Amount
  currency : String
  status : String
  method : String
  invoiceId : Option String := none
  contactId : Option String := none
  createdAt : Nat
  verifiedAt : Nat
deriving DecidableEq, Repr

/-- The server's in-memory storage: `const payments = []; const orders = []`. -/
structure ServerState where
  payments : List ServerPayment
  orders : List StoredOrder
deriving DecidableEq, Repr

/-- The body of POST /api/payment/verify. A `none` field is absent from the
JSON body. -/
structure VerifyReq where
  razorpayOrderId : Option String := none
  razorpayPaymentId : Option String := none
  razorpaySignature : Option String := none
  invoiceId : Option String := none
  contactId : Option String := none
deriving DecidableEq, Repr

/-- The possible responses of the verify endpoint (the configured-secret
path; the 500 responses for a missing secret or a thrown error are outside
the modelled claim). -/
inductive VerifyResponse where
  | missingDetails
  | invalidSignature
  | orderNotFound
  | success (payment : ServerPayment)
deriving DecidableEq, Repr

/-- HTTP status code of each verify response. -/
def VerifyResponse.statusCode : VerifyResponse → Nat
  | .missingDetails => 400
  | .invalidSignature => 400
  | .orderNotFound => 404
  | .success _ => 200

/-- Whether a verify response is the success JSON (`res.json({success:
true, ...})`). -/
def VerifyResponse.isSuccess : VerifyResponse → Bool
  | .success _ => true
  | _ => false

/-- POST /api/payment/verify. `hmacHex secret msg` abstracts the host
`crypto.createHmac('sha256', secret).update(msg).digest('hex')`; `rand` is
the random id suffix; `fetched` is the optional (status, method) pair from
`razorpay.payments.fetch` (the fetch error is caught and the code
continues). The `!x` JS presence checks treat an empty string as missing.
The signature is checked before the order lookup, and the payment record
(amount = stored order amount / 100) is pushed only on the success path. -/
def verifyPayment (hmacHex : String → String → String) (secret : String)
    (now : Nat) (rand : String) (fetched : Option (String × String))
    (st : ServerState) (req : VerifyReq) : VerifyResponse × ServerState :=
  match req.razorpayOrderId, req.razorpayPaymentId, req.razorpaySignature with
  | some oid, some pid, some sig =>
    if oid = "" ∨ pid = "" ∨ sig = "" then (.missingDetails, st)
    else
      let generatedSignature := hmacHex secret (oid ++ "|" ++ pid)
      if generatedSignature ≠ sig then (.invalidSignature, st)
      else
        match st.orders.find? (fun o => o.id == oid) with
        | none => (.orderNotFound, st)
        | some order =>
          let payment : ServerPayment :=
            { id := "payment_" ++ toString now ++ "_" ++ rand
              razorpayOrderId := oid
              razorpayPaymentId := pid
              razorpaySignature := sig
              amount := order.amount / 100
              currency := order.currency
              status := (fetched.map Prod.fst).getD "captured"
              method := (fetched.map Prod.snd).getD "unknown"
              invoiceId := req.invoiceId
              contactId := req.contactId
              createdAt := now
              verifiedAt := now }
          (.success payment, { st with payments := st.payments ++ [payment] })
  | _, _, _ => (.missingDetails, st)

/-- A concrete stand-in for the hex HMAC digest function (any function
realises some digest values; actual HMAC-SHA256 digests are nonempty hex
strings, which this stand-in respects). -/
def cexHmac : String → String → String :=
  fun secret msg => "hex:" ++ secret ++ ":" ++ msg

/-- A request whose razorpay_order_id is present but empty, with a received
signature equal to the digest over '' + '|' + 'pay_1'. -/
def cexVerifyReq : VerifyReq :=
  { razorpayOrderId := some ""
    razorpayPaymentId := some "pay_1"
    razorpaySignature := some (cexHmac "secret" ("" ++ "|" ++ "pay_1")) }

/-- The empty server state. -/
def cexServerState : ServerState := { payments := [], orders := [] }

/-- C2 counterexample: all three razorpay fields are present (none is
absent) and the received signature equals the HMAC digest over
razorpay_order_id + '|' + razorpay_payment_id, and no stored order has the
given id, so the claim predicts a 404 response; but the endpoint's `!x`
falsy check also fires on the empty string and responds 400. -/
theorem verify_claim_counterexample :
    cexVerifyReq.razorpayOrderId ≠ none ∧
    cexVerifyReq.razorpayPaymentId ≠ none ∧
    cexVerifyReq.razorpaySignature ≠ none ∧
    cexVerifyReq.razorpaySignature
      = some (cexHmac "secret"
          ((cexVerifyReq.razorpayOrderId.getD "") ++ "|"
            ++ (cexVerifyReq.razorpayPaymentId.getD ""))) ∧
    cexServerState.orders.find?
      (fun o => o.id == cexVerifyReq.razorpayOrderId.getD "") = none ∧
    ((verifyPayment cexHmac "secret" 0 "r" none cexServerState cexVerifyReq).fst).statusCode
      = 400 ∧
    ((verifyPayment cexHmac "secret" 0 "r" none cexServerState cexVerifyReq).fst).statusCode
      ≠ 404 := by
  refine ⟨?_, ?_, ?_, ?_, ?_, ?_, ?_⟩ <;> decide

/-- C2 amended: the verify endpoint responds 400 when any of
razorpay_order_id, razorpay_payment_id, razorpay_signature is absent or
empty; otherwise it computes the HMAC-SHA256 hex digest with the configured
secret over razorpay_order_id + '|' + razorpay_payment_id and responds 400
when the digest differs from the received signature, 404 when no stored
order has the given id, and success otherwise; on every non-success
response the whole state (payments included) is unchanged, and a payment
record with amount = stored order amount / 100 is appended exactly when the
response is success (orders are never modified). -/
theorem verifyPayment_amended (hmacHex : String → String → String)
    (secret : String) (now : Nat) (rand : String)
    (fetched : Option (String × String)) (st : ServerState) (req : VerifyReq) :
    ((req.razorpayOrderId = none ∨ req.razorpayPaymentId = none ∨
        req.razorpaySignature = none ∨ req.razorpayOrderId = some "" ∨
        req.razorpayPaymentId = some "" ∨ req.razorpaySignature = some "") →
      (verifyPayment hmacHex secret now rand fetched st req).fst.statusCode = 400 ∧
      (verifyPayment hmacHex secret now rand fetched st req).snd = st) ∧
    (∀ oid pid sig, req.razorpayOrderId = some oid →
      req.razorpayPaymentId = some pid → req.razorpaySignature = some sig →
      oid ≠ "" → pid ≠ "" → sig ≠ "" →
      ((hmacHex secret (oid ++ "|" ++ pid) ≠ sig →
          (verifyPayment hmacHex secret now rand fetched st req).fst.statusCode = 400 ∧
          (verifyPayment hmacHex secret now rand fetched st req).snd = st) ∧
        (hmacHex secret (oid ++ "|" ++ pid) = sig →
          (st.orders.find? (fun o => o.id == oid) = none →
            (verifyPayment hmacHex secret now rand fetched st req).fst.statusCode = 404 ∧
            (verifyPayment hmacHex secret now rand fetched st req).snd = st) ∧
          ∀ order, st.orders.find? (fun o => o.id == oid) = some order →
            (verifyPayment hmacHex secret now rand fetched st req).fst.isSuccess = true ∧
            (verifyPayment hmacHex secret now rand fetched st req).snd.orders = st.orders ∧
            ∃ p, (verifyPayment hmacHex secret now rand fetched st req).snd.payments
                = st.payments ++ [p] ∧
              p.amount = order.amount / 100 ∧
              (verifyPayment hmacHex secret now rand fetched st req).fst
                = VerifyResponse.success p))) ∧
    ((verifyPayment hmacHex secret now rand fetched st req).fst.isSuccess = false →
      (verifyPayment hmacHex secret now rand fetched st req).snd = st) := by
  obtain ⟨roid, rpid, rsig, rinv, rcon⟩ := req
  rcases roid with _ | oid <;> rcases rpid with _ | pid <;> rcases rsig with _ | sig <;>
    try (refine ⟨fun _ => ⟨rfl, rfl⟩, ?_, fun _ => rfl⟩
         intro a b c ha hb hc hne1 hne2 hne3
         first
           | exact Option.noConfusion ha
           | exact Option.noConfusion hb
           | exact Option.noConfusion hc)
  by_cases h0 : oid = "" ∨ pid = "" ∨ sig = ""
  · refine ⟨fun _ => ?_, ?_, fun _ => ?_⟩
    · simp only [verifyPayment]
      rw [if_pos h0]
      exact ⟨rfl, rfl⟩
    · intro a b c ha hb hc hne1 hne2 hne3
      cases ha; cases hb; cases hc
      rcases h0 with h | h | h
      · exact absurd h hne1
      · exact absurd h hne2
      · exact absurd h hne3
    · simp only [verifyPayment]
      rw [if_pos h0]
  · by_cases hsig2 : hmacHex secret (oid ++ "|" ++ pid) = sig
    · cases hfind : st.orders.find? (fun o => o.id == oid) with
      | none =>
        refine ⟨fun hmiss => ?_, ?_, fun _ => ?_⟩
        · exfalso
          rcases hmiss with h | h | h | h | h | h <;> simp_all
        · intro a b c ha hb hc hne1 hne2 hne3
          cases ha; cases hb; cases hc
          refine ⟨fun hne => absurd hsig2 hne, fun _ => ⟨fun _ => ?_, fun order horder => ?_⟩⟩
          · simp only [verifyPayment]
            rw [if_neg h0, if_neg (not_not_intro hsig2), hfind]
            exact ⟨rfl, rfl⟩
          · rw [hfind] at horder
            cases horder
        · simp only [verifyPayment]
          rw [if_neg h0, if_neg (not_not_intro hsig2), hfind]
      | some order =>
        refine ⟨fun hmiss => ?_, ?_, fun hns => ?_⟩
        · exfalso
          rcases hmiss with h | h | h | h | h | h <;> simp_all
        · intro a b c ha hb hc hne1 hne2 hne3
          cases ha; cases hb; cases hc
          refine ⟨fun hne => absurd hsig2 hne, fun _ => ⟨fun hnone => ?_, fun order2 horder => ?_⟩⟩
          · rw [hfind] at hnone
            cases hnone
          · rw [hfind] at horder
            injection horder with horder2
            subst horder2
            refine ⟨?_, ?_,
              ⟨{ id := "payment_" ++ toString now ++ "_" ++ rand
                 razorpayOrderId := oid, razorpayPaymentId := pid
                 razorpaySignature := sig, amount := order.amount / 100
                 currency := order.currency
                 status := (fetched.map Prod.fst).getD "captured"
                 method := (fetched.map Prod.snd).getD "unknown"
                 invoiceId := rinv, contactId := rcon
                 createdAt := now, verifiedAt := now }, ?_, rfl, ?_⟩⟩
            · simp only [verifyPayment]
              rw [if_neg h0, if_neg (not_not_intro hsig2), hfind]
              rfl
            · simp only [verifyPayment]
              rw [if_neg h0, if_neg (not_not_intro hsig2), hfind]
            · simp only [verifyPayment]
              rw [if_neg h0, if_neg (not_not_intro hsig2), hfind]
            · simp only [verifyPayment]
              rw [if_neg h0, if_neg (not_not_intro hsig2), hfind]
        · exfalso
          simp only [verifyPayment] at hns
          rw [if_neg h0, if_neg (not_not_intro hsig2), hfind] at hns
          simp [VerifyResponse.isSuccess] at hns
    · refine ⟨fun hmiss => ?_, ?_, fun _ => ?_⟩
      · exfalso
        rcases hmiss with h | h | h | h | h | h <;> simp_all
      · intro a b c ha hb hc hne1 hne2 hne3
        cases ha; cases hb; cases hc
        refine ⟨fun _ => ?_, fun heq => absurd heq hsig2⟩
        simp only [verifyPayment]
        rw [if_neg h0, if_pos hsig2]
        exact ⟨rfl, rfl⟩
      · simp only [verifyPayment]
        rw [if_neg h0, if_pos hsig2]

/-- A server state holding one stored order of 5000 paise. -/
def wServerState : ServerState :=
  { payments := []
    orders := [ { id := "order_1", amount := 5000, currency := "INR"
                  receipt := "rcpt", status := "created", createdAt := 0 } ] }

/-- A well-formed verify request matching wServerState's order, signed with
the stand-in digest function. -/
def wVerifyReq : VerifyReq :=
  { razorpayOrderId := some "order_1"
    razorpayPaymentId := some "pay_1"
    razorpaySignature := some (cexHmac "secret" ("order_1" ++ "|" ++ "pay_1")) }

/-- Witness for C2 amended at a concrete input: a valid signature over a
stored order verifies successfully and appends one payment of amount
5000 / 100. -/
theorem verifyPayment_amended_witness :
    (verifyPayment cexHmac "secret" 3 "r" none wServerState wVerifyReq).fst.isSuccess
      = true ∧
    (verifyPayment cexHmac "secret" 3 "r" none wServerState wVerifyReq).snd.orders
      = wServerState.orders ∧
    ∃ p, (verifyPayment cexHmac "secret" 3 "r" none wServerState wVerifyReq).snd.payments
        = wServerState.payments ++ [p] ∧
      p.amount = 5000 / 100 ∧
      (verifyPayment cexHmac "secret" 3 "r" none wServerState wVerifyReq).fst
        = VerifyResponse.success p := by
  have h := verifyPayment_amended cexHmac "secret" 3 "r" none wServerState wVerifyReq
  have hs := (h.2.1 "order_1" "pay_1" (cexHmac "secret" ("order_1" ++ "|" ++ "pay_1"))
    rfl rfl rfl (by decide) (by decide) (by decide)).2 rfl
  have horder : wServerState.orders.find?
      (fun o => o.id == "order_1")
      = some { id := "order_1", amount := 5000, currency := "INR"
               receipt := "rcpt", status := "created", createdAt := 0 } := by decide
  exact hs.2 _ horder

/-- Lookup in a JS Map modelled as an association list (first match). -/
def alookup {α : Type} (l : List (String × α)) (k : String) : Option α :=
  (l.find? (fun e => e.1 == k)).map Prod.snd

/-- JS Map.set: update the existing key in place (preserving insertion
order), otherwise append at the end. -/
def aset {α : Type} (l : List (String × α)) (k : String) (v : α) :
    List (String × α) :=
  if (l.find? (fun e => e.1 == k)).isSome then
    l.map (fun e => if e.1 == k then (k, v) else e)
  else l ++ [(k, v)]

/-- JS Map.delete. -/
def adel {α : Type} (l : List (String × α)) (k : String) : List (String × α) :=
  l.filter (fun e => e.1 != k)

theorem alookup_mapset {α : Type} (l : List (String × α)) (k : String) (v : α) :
    alookup (l.map (fun e => if e.1 == k then (k, v) else e)) k
      = (l.find? (fun e => e.1 == k)).map (fun _ => v) := by
  induction l with
  | nil => rfl
  | cons e t ih =>
    by_cases h : e.1 = k
    · simp [alookup, List.find?, h]
    · have hb : (e.1 == k) = false := beq_false_of_ne h
      simpa [alookup, List.find?, hb] using ih

theorem alookup_aset_self {α : Type} (l : List (String × α)) (k : String) (v : α) :
    alookup (aset l k v) k = some v := by
  unfold aset
  by_cases h : (l.find? (fun e => e.1 == k)).isSome
  · rw [if_pos h]
    rw [alookup_mapset]
    obtain ⟨w, hw⟩ := Option.isSome_iff_exists.mp h
    simp [hw]
  · rw [if_neg h]
    have hnone : l.find? (fun e => e.1 == k) = none :=
      Option.not_isSome_iff_eq_none.mp h
    unfold alookup
    rw [List.find?_append, hnone]
    simp [List.find?]

theorem aset_entries_key {α : Type} (l : List (String × α)) (k : String) (v : α) :
    ∀ e ∈ aset l k v, e.1 = k → e.2 = v := by
  unfold aset
  by_cases h : (l.find? (fun e => e.1 == k)).isSome
  · rw [if_pos h]
    intro e he hek
    obtain ⟨e0, he0, heq⟩ := List.mem_map.mp he
    by_cases h0 : e0.1 = k
    · rw [if_pos (by simp [h0])] at heq
      rw [← heq]
    · rw [if_neg (by simp [h0])] at heq
      rw [← heq] at hek
      exact absurd hek h0
  · rw [if_neg h]
    intro e he hek
    rcases List.mem_append.mp he with hmem | hmem
    · have hnone : l.find? (fun e => e.1 == k) = none :=
        Option.not_isSome_iff_eq_none.mp h
      have := List.find?_eq_none.mp hnone e hmem
      simp [hek] at this
    · rw [List.mem_singleton.mp hmem]

/-- RateLimitConfig from src/utils/rateLimiter.ts. Durations are JS numbers
subject to subtraction, so they are integers here. -/
structure RateLimitConfig where
  maxRequests : Nat
  windowMs : Int
  blockDurationMs : Option Int := none
deriving DecidableEq, Repr

/-- The RateLimiter's two private maps: identifier to request timestamps,
and identifier to blocked-until timestamp. -/
structure RLState where
  requests : List (String × List Int)
  blocked : List (String × Int)
deriving DecidableEq, Repr

/-- The 24-hour maxAge used by RateLimiter.cleanup. -/
def rlMaxAge : Int := 86400000

/-- RateLimiter.cleanup: per identifier drop request timestamps older than
24 hours, deleting identifiers left empty, and drop expired blocks. -/
def rlCleanup (now : Int) (st : RLState) : RLState :=
  { requests := (st.requests.map (fun e => (e.1, e.2.filter (fun t => now - t < rlMaxAge)))).filter
      (fun e => !e.2.isEmpty)
    blocked := st.blocked.filter (fun e => now < e.2) }

/-- The body of isRateLimited after the blocked-user checks: filter the
stored requests to the window, then either report the limit reached (and
set a block only when `if (config.blockDurationMs)` is truthy — a
configured 0 is falsy and writes no block) or record `now` and run
cleanup. -/
def isRateLimitedCore (now : Int) (identifier : String)
    (config : RateLimitConfig) (st : RLState) : Bool × RLState :=
  let userRequests := (alookup st.requests identifier).getD []
  let validRequests := userRequests.filter (fun t => now - t < config.windowMs)
  if config.maxRequests ≤ validRequests.length then
    match config.blockDurationMs with
    | some b =>
      if b ≠ 0 then (true, { st with blocked := aset st.blocked identifier (now + b) })
      else (true, st)
    | none => (true, st)
  else
    (false, rlCleanup now { st with requests := aset st.requests identifier (validRequests ++ [now]) })

/-- RateLimiter.isRateLimited from src/utils/rateLimiter.ts. The JS check
`if (blockedUntil && now < blockedUntil)` is falsy for a stored 0, so a
stored blocked-until of 0 neither blocks nor is deleted. -/
def isRateLimited (now : Int) (identifier : String)
    (config : RateLimitConfig) (st : RLState) : Bool × RLState :=
  match alookup st.blocked identifier with
  | some blockedUntil =>
    if blockedUntil ≠ 0 then
      if now < blockedUntil then (true, st)
      else isRateLimitedCore now identifier config
        { st with blocked := adel st.blocked identifier }
    else isRateLimitedCore now identifier config st
  | none => isRateLimitedCore now identifier config st

theorem alookup_cleanup_requests (q : Int → Bool)
    (m : List (String × List Int)) (k : String) (v : List Int)
    (hall : ∀ e ∈ m, e.1 = k → e.2 = v) (hsome : alookup m k = some v)
    (hne : (v.filter q).isEmpty = false) :
    alookup ((m.map fun e => (e.1, e.2.filter q)).filter (fun e => !e.2.isEmpty)) k
      = some (v.filter q) := by
  induction m with
  | nil => simp [alookup] at hsome
  | cons e t ih =>
    by_cases h : e.1 = k
    · have hv : e.2 = v := hall e (List.mem_cons_self e t) h
      simp [alookup, List.find?, List.filter, h, hv, hne]
    · have hb : (e.1 == k) = false := beq_false_of_ne h
      have hsome2 : alookup t k = some v := by
        simpa [alookup, List.find?, hb] using hsome
      have hall2 : ∀ e2 ∈ t, e2.1 = k → e2.2 = v :=
        fun e2 he2 => hall e2 (List.mem_cons_of_mem _ he2)
      by_cases hemp : (e.2.filter q).isEmpty
      · simpa [alookup, List.find?, List.filter, hb, hemp] using ih hall2 hsome2
      · simpa [alookup, List.find?, List.filter, hb, hemp] using ih hall2 hsome2

theorem now_mem_cleaned (now : Int) (valid : List Int) :
    now ∈ (valid ++ [now]).filter (fun t => now - t < rlMaxAge) :=
  List.mem_filter.mpr
    ⟨List.mem_append_right _ (List.mem_singleton_self now), by simp [rlMaxAge]⟩

theorem rl_core_spec (now : Int) (identifier : String)
    (config : RateLimitConfig) (st : RLState) :
    ((isRateLimitedCore now identifier config st).fst = true ↔
      config.maxRequests ≤ (((alookup st.requests identifier).getD []).filter
        (fun t => now - t < config.windowMs)).length) ∧
    ((isRateLimitedCore now identifier config st).fst = true →
      (isRateLimitedCore now identifier config st).snd.requests = st.requests) ∧
    ((isRateLimitedCore now identifier config st).fst = false →
      alookup (isRateLimitedCore now identifier config st).snd.requests identifier
        = some (((((alookup st.requests identifier).getD []).filter
            (fun t => now - t < config.windowMs)) ++ [now]).filter
              (fun t => now - t < rlMaxAge))) ∧
    (config.maxRequests ≤ (((alookup st.requests identifier).getD []).filter
        (fun t => now - t < config.windowMs)).length →
      ∀ bd, config.blockDurationMs = some bd → bd ≠ 0 →
        alookup (isRateLimitedCore now identifier config st).snd.blocked identifier
          = some (now + bd)) := by
  cases hbd : config.blockDurationMs with
  | none =>
    simp only [isRateLimitedCore, hbd]
    by_cases hcount : config.maxRequests ≤ (((alookup st.requests identifier).getD []).filter
        (fun t => now - t < config.windowMs)).length
    · rw [if_pos hcount]
      exact ⟨by simp [hcount], fun _ => rfl, by simp, fun _ bd hbd2 => by cases hbd2⟩
    · rw [if_neg hcount]
      refine ⟨by simp [hcount], by simp, fun _ => ?_, fun hc => absurd hc hcount⟩
      unfold rlCleanup
      refine alookup_cleanup_requests _ _ _ _
        (aset_entries_key _ _ _) (alookup_aset_self _ _ _) ?_
      have := now_mem_cleaned now (((alookup st.requests identifier).getD []).filter
        (fun t => now - t < config.windowMs))
      exact List.isEmpty_eq_false_iff_exists_mem.mpr ⟨now, this⟩
  | some b =>
    simp only [isRateLimitedCore, hbd]
    by_cases hcount : config.maxRequests ≤ (((alookup st.requests identifier).getD []).filter
        (fun t => now - t < config.windowMs)).length
    · rw [if_pos hcount]
      by_cases hb : b = 0
      · subst hb
        rw [if_neg (not_not_intro rfl)]
        refine ⟨by simp [hcount], fun _ => rfl, by simp, fun _ bd hbd2 hbne => ?_⟩
        injection hbd2 with h2
        exact absurd h2.symm hbne
      · rw [if_pos hb]
        refine ⟨by simp [hcount], fun _ => rfl, by simp, fun _ bd hbd2 hbne => ?_⟩
        injection hbd2 with h2
        subst h2
        exact alookup_aset_self _ _ _
    · rw [if_neg hcount]
      refine ⟨by simp [hcount], by simp, fun _ => ?_, fun hc => absurd hc hcount⟩
      unfold rlCleanup
      refine alookup_cleanup_requests _ _ _ _
        (aset_entries_key _ _ _) (alookup_aset_self _ _ _) ?_
      have := now_mem_cleaned now (((alookup st.requests identifier).getD []).filter
        (fun t => now - t < config.windowMs))
      exact List.isEmpty_eq_false_iff_exists_mem.mpr ⟨now, this⟩

/-- C5 counterexample: with blockDurationMs configured as 0 and the request
count at the limit, the call returns true but the `if
(config.blockDurationMs)` truthy guard is falsy, so no block is written:
the identifier does not become blocked until now + 0. -/
theorem rateLimiter_block_claim_counterexample :
    (isRateLimited 5 "u"
      { maxRequests := 1, windowMs := 1000, blockDurationMs := some 0 }
      { requests := [("u", [4])], blocked := [] }).fst = true ∧
    ({ maxRequests := 1, windowMs := 1000, blockDurationMs := some 0 }
      : RateLimitConfig).blockDurationMs = some 0 ∧
    alookup (isRateLimited 5 "u"
      { maxRequests := 1, windowMs := 1000, blockDurationMs := some 0 }
      { requests := [("u", [4])], blocked := [] }).snd.blocked "u" = none ∧
    (none : Option Int) ≠ some (5 + 0) := by
  refine ⟨by decide, by decide, by decide, by decide⟩

/-- C5 amended: isRateLimited returns true exactly when the identifier is
inside an active block (blockedUntil in the future) or already has at
least maxRequests recorded requests younger than windowMs; a call that
returns false records the current time as a request (the stored list
becomes the window-filtered previous requests plus now, then aged by the
24h cleanup, and contains now); a call that returns true records no
request; and when the request count reaches the limit with blockDurationMs
set to a nonzero (truthy) duration, the identifier becomes blocked until
now + blockDurationMs (a configured 0 is falsy and writes no block). -/
theorem isRateLimited_spec (now : Int) (identifier : String)
    (config : RateLimitConfig) (st : RLState) (hnow : 0 ≤ now) :
    ((isRateLimited now identifier config st).fst = true ↔
      ((∃ b, alookup st.blocked identifier = some b ∧ now < b) ∨
        config.maxRequests ≤ (((alookup st.requests identifier).getD []).filter
          (fun t => now - t < config.windowMs)).length)) ∧
    ((isRateLimited now identifier config st).fst = true →
      (isRateLimited now identifier config st).snd.requests = st.requests) ∧
    ((isRateLimited now identifier config st).fst = false →
      alookup (isRateLimited now identifier config st).snd.requests identifier
        = some (((((alookup st.requests identifier).getD []).filter
            (fun t => now - t < config.windowMs)) ++ [now]).filter
              (fun t => now - t < rlMaxAge)) ∧
      now ∈ ((((alookup st.requests identifier).getD []).filter
          (fun t => now - t < config.windowMs)) ++ [now]).filter
            (fun t => now - t < rlMaxAge)) ∧
    ((¬ ∃ b, alookup st.blocked identifier = some b ∧ now < b) →
      config.maxRequests ≤ (((alookup st.requests identifier).getD []).filter
        (fun t => now - t < config.windowMs)).length →
      ∀ bd, config.blockDurationMs = some bd → bd ≠ 0 →
        alookup (isRateLimited now identifier config st).snd.blocked identifier
          = some (now + bd)) := by
  cases hb : alookup st.blocked identifier with
  | none =>
    simp only [isRateLimited, hb]
    have hc := rl_core_spec now identifier config st
    refine ⟨?_, hc.2.1, fun hf => ⟨(hc.2.2.1 hf), now_mem_cleaned _ _⟩, fun _ => hc.2.2.2⟩
    rw [hc.1]
    constructor
    · exact fun h => Or.inr h
    · rintro (⟨b, hb2, _⟩ | h)
      · cases hb2
      · exact h
  | some b =>
    simp only [isRateLimited, hb]
    by_cases hb0 : b = 0
    · subst hb0
      rw [if_neg (not_not_intro rfl)]
      have hc := rl_core_spec now identifier config st
      refine ⟨?_, hc.2.1, fun hf => ⟨(hc.2.2.1 hf), now_mem_cleaned _ _⟩, fun _ => hc.2.2.2⟩
      rw [hc.1]
      constructor
      · exact fun h => Or.inr h
      · rintro (⟨b2, hb2, hlt⟩ | h)
        · injection hb2 with h2
          subst h2
          exact absurd hlt (by omega)
        · exact h
    · rw [if_pos hb0]
      by_cases hlt : now < b
      · rw [if_pos hlt]
        refine ⟨?_, ?_, ?_, ?_⟩
        · simp only [true_iff]
          exact Or.inl ⟨b, rfl, hlt⟩
        · exact fun _ => rfl
        · intro hf
          simp at hf
        · exact fun hno _ _ _ _ => absurd ⟨b, rfl, hlt⟩ hno
      · rw [if_neg hlt]
        have hc := rl_core_spec now identifier config
          { st with blocked := adel st.blocked identifier }
        refine ⟨?_, hc.2.1, fun hf => ⟨(hc.2.2.1 hf), now_mem_cleaned _ _⟩, fun _ => hc.2.2.2⟩
        rw [hc.1]
        constructor
        · exact fun h => Or.inr h
        · rintro (⟨b2, hb2, hlt2⟩ | h)
          · injection hb2 with h2
            subst h2
            exact absurd hlt2 hlt
          · exact h

/-- Witness for C5 at a concrete input: with an empty limiter state and a
limit of 2 per 1000ms, a first call at time 5 is not limited and records
time 5. -/
theorem isRateLimited_spec_witness :
    (0 : Int) ≤ 5 ∧
    ((isRateLimited 5 "u" { maxRequests := 2, windowMs := 1000 }
        { requests := [], blocked := [] }).fst = false →
      alookup (isRateLimited 5 "u" { maxRequests := 2, windowMs := 1000 }
          { requests := [], blocked := [] }).snd.requests "u"
        = some ((((((alookup ({ requests := [], blocked := [] } : RLState).requests "u").getD
            []).filter (fun t => 5 - t < 1000)) ++ [5]).filter
              (fun t => 5 - t < rlMaxAge))) ∧
      (5 : Int) ∈ ((((alookup ({ requests := [], blocked := [] } : RLState).requests "u").getD
          []).filter (fun t => 5 - t < 1000)) ++ [5]).filter
            (fun t => 5 - t < rlMaxAge)) := by
  have h := isRateLimited_spec 5 "u" { maxRequests := 2, windowMs := 1000 }
    { requests := [], blocked := [] } (by decide)
  exact ⟨by decide, h.2.2.1⟩

/-- CacheItem from src/utils/cache.ts. Timestamps, TTLs and last-access
times are JS numbers subject to subtraction, hence integers. -/
structure CacheItem (V : Type) where
  data : V
  timestamp : Int
  ttl : Int
  accessCount : Nat
  lastAccessed : Int
deriving DecidableEq, Repr

/-- The LRUCache's private state and options. -/
structure LRUCache (V : Type) where
  entries : List (String × CacheItem V)
  maxSize : Nat
  defaultTTL : Int
  maxMemoryUsage : Nat
deriving DecidableEq, Repr

/-- JS `x || d` on an optional number: both undefined and 0 fall back. -/
def orFalsyNat (o : Option Nat) (d : Nat) : Nat :=
  match o with
  | some n => if n = 0 then d else n
  | none => d

/-- JS `x || d` on an optional numeric TTL. -/
def orFalsyInt (o : Option Int) (d : Int) : Int :=
  match o with
  | some n => if n = 0 then d else n
  | none => d

/-- The LRUCache constructor: maxSize 1000, defaultTTL 5 minutes,
maxMemoryUsage 50 MB by default. -/
def mkCache (V : Type) (maxSize0 : Option Nat) (defaultTTL0 : Option Int)
    (maxMemoryUsage0 : Option Nat) : LRUCache V :=
  { entries := []
    maxSize := orFalsyNat maxSize0 1000
    defaultTTL := orFalsyInt defaultTTL0 300000
    maxMemoryUsage := orFalsyNat maxMemoryUsage0 50 }

/-- cleanup(): delete every entry with now - timestamp > ttl. -/
def cacheCleanup {V : Type} (now : Int) (l : List (String × CacheItem V)) :
    List (String × CacheItem V) :=
  l.filter (fun e => !decide (e.2.ttl < now - e.2.timestamp))

/-- The byte total of getStats(): estimateSize(data) + key.length * 2 per
entry. `sizeOf` abstracts estimateSize (JSON.stringify(data).length * 2,
1024 when serialisation throws). -/
def totalMemory {V : Type} (sizeOf : V → Nat)
    (l : List (String × CacheItem V)) : Nat :=
  (l.map (fun e => sizeOf e.2.data + e.1.length * 2)).sum

/-- Comparison used by evictLRU's sort: ascending lastAccessed. -/
abbrev lruLe {V : Type} (a b : String × CacheItem V) : Prop :=
  a.2.lastAccessed ≤ b.2.lastAccessed

instance {V : Type} : IsTotal (String × CacheItem V) lruLe :=
  ⟨fun a b => Int.le_total _ _⟩

instance {V : Type} : IsTrans (String × CacheItem V) lruLe :=
  ⟨fun _ _ _ h1 h2 => le_trans h1 h2⟩

/-- The entries sorted by lastAccessed ascending. JS Array.prototype.sort
with a numeric comparator is stable (ES2019), matching insertion sort. -/
def lruSorted {V : Type} (l : List (String × CacheItem V)) :
    List (String × CacheItem V) :=
  List.insertionSort lruLe l

/-- evictLRU(count): delete the first min(count, length) entries of the
sorted list from the map, by key. -/
def evictLRU {V : Type} (count : Nat) (l : List (String × CacheItem V)) :
    List (String × CacheItem V) :=
  l.filter (fun e => !(((lruSorted l).take count).map Prod.fst).contains e.1)

/-- evictIfNecessary: cleanup expired entries, evict ceil(20%) of the
entries when the estimated memory exceeds maxMemoryUsage MB (the float
comparison totalMemory/1048576 > maxMB is the exact integer comparison
below, and Math.ceil(n * 0.2) = ceil(n/5) for representable sizes), then
evict down to maxSize when the size limit is exceeded. -/
def evictIfNecessary {V : Type} (sizeOf : V → Nat) (now : Int)
    (c : LRUCache V) : LRUCache V :=
  let cleaned := cacheCleanup now c.entries
  let afterMem :=
    if c.maxMemoryUsage * 1048576 < totalMemory sizeOf cleaned then
      evictLRU ((cleaned.length + 4) / 5) cleaned
    else cleaned
  let afterSize :=
    if c.maxSize < afterMem.length then
      evictLRU (afterMem.length - c.maxSize) afterMem
    else afterMem
  { c with entries := afterSize }

/-- LRUCache.set: build the item (ttl || defaultTTL), delete any existing
entry for the key, append the new entry at the most-recently-used end, then
enforce the limits. -/
def cacheSet {V : Type} (sizeOf : V → Nat) (now : Int) (k : String) (v : V)
    (ttl0 : Option Int) (c : LRUCache V) : LRUCache V :=
  let item : CacheItem V :=
    { data := v, timestamp := now, ttl := orFalsyInt ttl0 c.defaultTTL
      accessCount := 0, lastAccessed := now }
  evictIfNecessary sizeOf now { c with entries := adel c.entries k ++ [(k, item)] }

/-- LRUCache.get: null on a miss; delete and return null when expired;
otherwise bump accessCount, refresh lastAccessed, move the entry to the
most-recently-used end and return the data. -/
def cacheGet {V : Type} (now : Int) (k : String) (c : LRUCache V) :
    Option V × LRUCache V :=
  match alookup c.entries k with
  | none => (none, c)
  | some item =>
    if item.ttl < now - item.timestamp then
      (none, { c with entries := adel c.entries k })
    else
      (some item.data,
        { c with entries := adel c.entries k ++
            [(k, { item with accessCount := item.accessCount + 1, lastAccessed := now })] })

/-- LRUCache.has: true exactly when the key is present and not expired
(expired entries are deleted on the way). -/
def cacheHas {V : Type} (now : Int) (k : String) (c : LRUCache V) :
    Bool × LRUCache V :=
  match alookup c.entries k with
  | none => (false, c)
  | some item =>
    if item.ttl < now - item.timestamp then
      (false, { c with entries := adel c.entries k })
    else (true, c)

/-- LRUCache.delete. -/
def cacheDelete {V : Type} (k : String) (c : LRUCache V) : LRUCache V :=
  { c with entries := adel c.entries k }

theorem lruSorted_perm {V : Type} (l : List (String × CacheItem V)) :
    List.Perm (lruSorted l) l :=
  List.perm_insertionSort lruLe l

theorem lruSorted_length {V : Type} (l : List (String × CacheItem V)) :
    (lruSorted l).length = l.length :=
  (lruSorted_perm l).length_eq

theorem lruSorted_sorted {V : Type} (l : List (String × CacheItem V)) :
    List.Sorted lruLe (lruSorted l) :=
  List.sorted_insertionSort lruLe l

theorem orderedInsert_append_last {V : Type} (a x : String × CacheItem V)
    (s : List (String × CacheItem V)) (hax : lruLe a x) :
    List.orderedInsert lruLe a (s ++ [x])
      = List.orderedInsert lruLe a s ++ [x] := by
  induction s with
  | nil =>
    simp [List.orderedInsert, hax]
  | cons b t ih =>
    by_cases hab : lruLe a b
    · simp [List.orderedInsert, hab]
    · simp [List.orderedInsert, hab, ih]

theorem lruSorted_append_last {V : Type} (L : List (String × CacheItem V))
    (x : String × CacheItem V) (hle : ∀ e ∈ L, lruLe e x) :
    lruSorted (L ++ [x]) = lruSorted L ++ [x] := by
  induction L with
  | nil => rfl
  | cons h t ih =>
    have hx : lruLe h x := hle h (List.mem_cons_self h t)
    have ih2 := ih (fun e he => hle e (List.mem_cons_of_mem _ he))
    calc lruSorted ((h :: t) ++ [x])
        = List.orderedInsert lruLe h (lruSorted (t ++ [x])) := rfl
      _ = List.orderedInsert lruLe h (lruSorted t ++ [x]) := by rw [ih2]
      _ = List.orderedInsert lruLe h (lruSorted t) ++ [x] :=
          orderedInsert_append_last h x _ hx
      _ = lruSorted (h :: t) ++ [x] := rfl

theorem alookup_none_keys {α : Type} (l : List (String × α)) (k : String)
    (h : ∀ e ∈ l, e.1 ≠ k) : alookup l k = none := by
  unfold alookup
  rw [List.find?_eq_none.mpr]
  · rfl
  · intro e he
    simpa using h e he

theorem alookup_append_last {α : Type} (L : List (String × α)) (k : String)
    (x : α) (hL : ∀ e ∈ L, e.1 ≠ k) :
    alookup (L ++ [(k, x)]) k = some x := by
  unfold alookup
  rw [List.find?_append, List.find?_eq_none.mpr]
  · simp [List.find?]
  · intro e he
    simpa using hL e he

theorem adel_keys {α : Type} (l : List (String × α)) (k : String) :
    ∀ e ∈ adel l k, e.1 ≠ k := by
  intro e he
  have := List.of_mem_filter he
  simpa using this

theorem alookup_adel_self {α : Type} (l : List (String × α)) (k : String) :
    alookup (adel l k) k = none :=
  alookup_none_keys _ _ (adel_keys l k)

theorem take_filter_victims {V : Type} (count : Nat)
    (s : List (String × CacheItem V)) :
    (s.take count).filter
      (fun e => !((s.take count).map Prod.fst).contains e.1) = [] := by
  apply List.filter_eq_nil_iff.mpr
  intro e he
  simp only [Bool.not_eq_true', Bool.not_eq_false]
  exact List.elem_iff.mpr (List.mem_map_of_mem Prod.fst he)

theorem evictLRU_filter_form {V : Type} (count : Nat)
    (l : List (String × CacheItem V)) :
    (evictLRU count l).length
      = (((lruSorted l).drop count).filter
          (fun e => !(((lruSorted l).take count).map Prod.fst).contains e.1)).length := by
  unfold evictLRU
  set p : (String × CacheItem V) → Bool :=
    fun e => !(((lruSorted l).take count).map Prod.fst).contains e.1 with hp
  rw [← ((lruSorted_perm l).filter p).length_eq]
  rw [show (lruSorted l).filter p
      = ((lruSorted l).take count ++ (lruSorted l).drop count).filter p from by
    rw [List.take_append_drop]]
  rw [List.filter_append]
  have htake : ((lruSorted l).take count).filter p = [] := by
    rw [hp]
    exact take_filter_victims count (lruSorted l)
  rw [htake]
  simp

theorem evictLRU_length_le {V : Type} (count : Nat)
    (l : List (String × CacheItem V)) :
    (evictLRU count l).length ≤ l.length - count := by
  rw [evictLRU_filter_form]
  calc (((lruSorted l).drop count).filter
        (fun e => !(((lruSorted l).take count).map Prod.fst).contains e.1)).length
      ≤ ((lruSorted l).drop count).length := List.length_filter_le _ _
    _ = (lruSorted l).length - count := List.length_drop _ _
    _ = l.length - count := by rw [lruSorted_length]

theorem evictLRU_length_eq {V : Type} (count : Nat)
    (l : List (String × CacheItem V))
    (hnodup : (l.map Prod.fst).Nodup) (hcount : count ≤ l.length) :
    (evictLRU count l).length = l.length - count := by
  rw [evictLRU_filter_form]
  have hnodup2 : ((lruSorted l).map Prod.fst).Nodup :=
    (((lruSorted_perm l).map Prod.fst).nodup_iff).mpr hnodup
  have hdrop : ((lruSorted l).drop count).filter
      (fun e => !(((lruSorted l).take count).map Prod.fst).contains e.1)
      = (lruSorted l).drop count := by
    apply List.filter_eq_self.mpr
    intro e he
    simp only [Bool.not_eq_true', Bool.not_eq_false]
    apply Bool.eq_false_iff.mpr
    intro hcontains
    obtain ⟨e2, he2, hke⟩ := List.mem_map.mp (List.elem_iff.mp hcontains)
    have hmemtake : e2 ∈ lruSorted l := List.mem_of_mem_take he2
    have hmemdrop : e ∈ lruSorted l := List.mem_of_mem_drop he
    have heq : e2 = e := List.inj_on_of_nodup_map hnodup2 hmemtake hmemdrop hke
    subst heq
    have hnodup3 := hnodup2
    rw [show (lruSorted l).map Prod.fst
        = ((lruSorted l).take count).map Prod.fst
          ++ ((lruSorted l).drop count).map Prod.fst from by
      rw [← List.map_append, List.take_append_drop]] at hnodup3
    rw [List.nodup_append] at hnodup3
    exact hnodup3.2.2 (List.mem_map_of_mem Prod.fst he2)
      (List.mem_map_of_mem Prod.fst he)
  rw [hdrop, List.length_drop, lruSorted_length]

theorem evictLRU_lru_first {V : Type} (count : Nat)
    (l : List (String × CacheItem V))
    (hnodup : (l.map Prod.fst).Nodup) :
    ∀ e ∈ l, e ∉ evictLRU count l →
      ∀ e2 ∈ evictLRU count l, e.2.lastAccessed ≤ e2.2.lastAccessed := by
  intro e hel henot e2 he2
  have hnodup2 : ((lruSorted l).map Prod.fst).Nodup :=
    (((lruSorted_perm l).map Prod.fst).nodup_iff).mpr hnodup
  have hvictim : e ∈ (lruSorted l).take count := by
    by_contra hnot
    apply henot
    unfold evictLRU
    apply List.mem_filter.mpr
    refine ⟨hel, ?_⟩
    simp only [Bool.not_eq_true', Bool.not_eq_false]
    apply Bool.eq_false_iff.mpr
    intro hcontains
    obtain ⟨e3, he3, hke⟩ := List.mem_map.mp (List.elem_iff.mp hcontains)
    have heq : e3 = e := List.inj_on_of_nodup_map hnodup2
      (List.mem_of_mem_take he3) ((lruSorted_perm l).mem_iff.mpr hel) hke
    subst heq
    exact hnot he3
  have hkeep : e2 ∈ (lruSorted l).drop count := by
    have hmem : e2 ∈ lruSorted l :=
      (lruSorted_perm l).mem_iff.mpr (List.mem_of_mem_filter he2)
    rw [← List.take_append_drop count (lruSorted l)] at hmem
    rcases List.mem_append.mp hmem with htk | hdp
    · exfalso
      have hp := List.of_mem_filter he2
      simp only [Bool.not_eq_true'] at hp
      rw [Bool.eq_false_iff] at hp
      exact hp (List.elem_iff.mpr (List.mem_map_of_mem Prod.fst htk))
    · exact hdp
  have hsorted := lruSorted_sorted l
  rw [← List.take_append_drop count (lruSorted l)] at hsorted
  unfold List.Sorted at hsorted
  rw [List.pairwise_append] at hsorted
  exact hsorted.2.2 e hvictim e2 hkeep

theorem mem_of_mem_evictLRU {V : Type} {count : Nat}
    {l : List (String × CacheItem V)} {e : String × CacheItem V}
    (h : e ∈ evictLRU count l) : e ∈ l :=
  List.mem_of_mem_filter h

theorem cacheCleanup_append_fresh {V : Type} (t : Int)
    (L : List (String × CacheItem V)) (k : String) (item : CacheItem V)
    (hts : item.timestamp = t) (hT : 0 ≤ item.ttl) :
    cacheCleanup t (L ++ [(k, item)]) = cacheCleanup t L ++ [(k, item)] := by
  unfold cacheCleanup
  rw [List.filter_append]
  congr 1
  rw [List.filter_singleton]
  have : ¬ (item.ttl < t - item.timestamp) := by
    rw [hts]
    simp
    exact hT
  simp [this]

/-- After `set`, the just-written key maps to the freshly stamped item,
provided the memory sweep does not fire, the constructed TTL is
nonnegative, maxSize is positive (the constructor guarantees it), and no
stored entry has a lastAccessed in the future of the write. -/
theorem cacheSet_lookup {V : Type} (sizeOf : V → Nat) (c : LRUCache V)
    (k : String) (v : V) (ttl0 : Option Int) (t : Int)
    (hmax : 0 < c.maxSize)
    (hlast : ∀ e ∈ c.entries, e.2.lastAccessed ≤ t)
    (hmem : ¬ (c.maxMemoryUsage * 1048576 < totalMemory sizeOf
      (cacheCleanup t (adel c.entries k ++
        [(k, { data := v, timestamp := t, ttl := orFalsyInt ttl0 c.defaultTTL
               accessCount := 0, lastAccessed := t })]))))
    (hT : 0 ≤ orFalsyInt ttl0 c.defaultTTL) :
    alookup (cacheSet sizeOf t k v ttl0 c).entries k
      = some { data := v, timestamp := t, ttl := orFalsyInt ttl0 c.defaultTTL
               accessCount := 0, lastAccessed := t } := by
  simp only [cacheSet, evictIfNecessary]
  rw [if_neg hmem]
  rw [cacheCleanup_append_fresh t (adel c.entries k) k _ rfl hT]
  have hkeysL : ∀ e ∈ cacheCleanup t (adel c.entries k), e.1 ≠ k :=
    fun e he => adel_keys _ _ e (List.mem_of_mem_filter he)
  have hlastL : ∀ e ∈ cacheCleanup t (adel c.entries k),
      lruLe e (k, { data := v, timestamp := t, ttl := orFalsyInt ttl0 c.defaultTTL
                    accessCount := 0, lastAccessed := t }) := by
    intro e he
    exact hlast e (List.mem_of_mem_filter (List.mem_of_mem_filter he))
  set L := cacheCleanup t (adel c.entries k) with hL
  set x : String × CacheItem V :=
    (k, { data := v, timestamp := t, ttl := orFalsyInt ttl0 c.defaultTTL
          accessCount := 0, lastAccessed := t }) with hx
  by_cases hsize : c.maxSize < (L ++ [x]).length
  · rw [if_pos hsize]
    have hlen : (L ++ [x]).length = L.length + 1 := by
      rw [List.length_append]
      rfl
    have hcount : (L ++ [x]).length - c.maxSize ≤ L.length := by
      omega
    unfold evictLRU
    rw [lruSorted_append_last L x hlastL]
    rw [List.take_append_of_le_length (by rw [lruSorted_length]; exact hcount)]
    have hvictims : ∀ e2 ∈ ((lruSorted L).take ((L ++ [x]).length - c.maxSize)).map
        Prod.fst, e2 ≠ k := by
      intro e2 he2
      obtain ⟨e3, he3, hke⟩ := List.mem_map.mp he2
      rw [← hke]
      exact hkeysL e3 ((lruSorted_perm L).mem_iff.mp (List.mem_of_mem_take he3))
    rw [List.filter_append]
    have hkeepx : List.filter
        (fun e => !(((lruSorted L).take ((L ++ [x]).length - c.maxSize)).map
          Prod.fst).contains e.1) [x] = [x] := by
      rw [List.filter_singleton]
      have hnc : (((lruSorted L).take ((L ++ [x]).length - c.maxSize)).map
          Prod.fst).contains x.1 = false := by
        apply Bool.eq_false_iff.mpr
        intro hcon
        exact hvictims x.1 (List.elem_iff.mp hcon) rfl
      rw [hnc]
      rfl
    rw [hkeepx]
    apply alookup_append_last
    intro e he
    exact hkeysL e (List.mem_of_mem_filter he)
  · rw [if_neg hsize]
    exact alookup_append_last L k _ hkeysL

/-- After `set` with a falsy-adjusted TTL that is negative, the entry is
already expired and the cleanup inside evictIfNecessary removes it. -/
theorem cacheSet_lookup_expired {V : Type} (sizeOf : V → Nat) (c : LRUCache V)
    (k : String) (v : V) (ttl0 : Option Int) (t : Int)
    (hTneg : orFalsyInt ttl0 c.defaultTTL < 0) :
    alookup (cacheSet sizeOf t k v ttl0 c).entries k = none := by
  simp only [cacheSet, evictIfNecessary]
  apply alookup_none_keys
  intro e he
  have hclean : e ∈ cacheCleanup t (adel c.entries k ++
      [(k, { data := v, timestamp := t, ttl := orFalsyInt ttl0 c.defaultTTL
             accessCount := 0, lastAccessed := t })]) := by
    split at he
    · split at he
      · exact mem_of_mem_evictLRU (mem_of_mem_evictLRU he)
      · exact mem_of_mem_evictLRU he
    · split at he
      · exact mem_of_mem_evictLRU he
      · exact he
  have hpred := List.of_mem_filter hclean
  have hmem2 := List.mem_of_mem_filter hclean
  rcases List.mem_append.mp hmem2 with h1 | h2
  · exact adel_keys _ _ e h1
  · exfalso
    rw [List.mem_singleton.mp h2] at hpred
    simp at hpred
    omega

theorem evictLRU_keeps_last {V : Type} (count : Nat)
    (L : List (String × CacheItem V)) (k : String) (item : CacheItem V)
    (hkeys : ∀ e ∈ L, e.1 ≠ k)
    (hle : ∀ e ∈ L, lruLe e (k, item))
    (hcount : count ≤ L.length) :
    alookup (evictLRU count (L ++ [(k, item)])) k = some item := by
  unfold evictLRU
  rw [lruSorted_append_last L (k, item) hle]
  rw [List.take_append_of_le_length (by rw [lruSorted_length]; exact hcount)]
  rw [List.filter_append]
  have hkeepx : List.filter
      (fun e => !(((lruSorted L).take count).map Prod.fst).contains e.1)
      [(k, item)] = [(k, item)] := by
    rw [List.filter_singleton]
    have hnc : (((lruSorted L).take count).map Prod.fst).contains (k, item).1
        = false := by
      apply Bool.eq_false_iff.mpr
      intro hcon
      obtain ⟨e3, he3, hke⟩ := List.mem_map.mp (List.elem_iff.mp hcon)
      exact hkeys e3 ((lruSorted_perm L).mem_iff.mp (List.mem_of_mem_take he3)) hke
    rw [hnc]
    rfl
  rw [hkeepx]
  apply alookup_append_last
  intro e he
  exact hkeys e (List.mem_of_mem_filter he)

theorem cacheGet_of_lookup_fresh {V : Type} (now : Int) (k : String)
    (c : LRUCache V) (item : CacheItem V)
    (hlook : alookup c.entries k = some item)
    (hfresh : ¬ (item.ttl < now - item.timestamp)) :
    (cacheGet now k c).fst = some item.data := by
  simp only [cacheGet, hlook]
  rw [if_neg hfresh]

theorem cacheGet_of_lookup_expired {V : Type} (now : Int) (k : String)
    (c : LRUCache V) (item : CacheItem V)
    (hlook : alookup c.entries k = some item)
    (hexp : item.ttl < now - item.timestamp) :
    (cacheGet now k c).fst = none ∧
    (cacheGet now k c).snd.entries = adel c.entries k := by
  simp only [cacheGet, hlook]
  rw [if_pos hexp]
  exact ⟨rfl, rfl⟩

/-- The estimateSize abstraction for a value whose JSON text is about 60
million characters: estimateSize returns length * 2. -/
def bigSize : Unit → Nat := fun _ => 120000000

/-- C6 counterexample: a key stored at time 0 with the default TTL is still
fresh at time 0 (now - t = 0 <= ttl), yet get returns null: the single
entry's estimated memory (120000002 bytes) exceeds the default 50MB cap, so
evictIfNecessary inside set immediately evicts ceil(20%) = 1 entry, which
is the entry just written. -/
theorem cache_ttl_claim_counterexample :
    ((0:Int) - 0 ≤ orFalsyInt none (mkCache Unit none none none).defaultTTL) ∧
    (cacheGet 0 "k" (cacheSet bigSize 0 "k" () none
      (mkCache Unit none none none))).fst = none ∧
    (cacheGet 0 "k" (cacheSet bigSize 0 "k" () none
      (mkCache Unit none none none))).fst ≠ some () := by
  refine ⟨by decide, by decide, by decide⟩

/-- C6 amended: provided the memory sweep does not fire (the cache-wide
estimated memory stays within maxMemoryUsage), maxSize is positive and
lastAccessed times are not in the future, a key stored at time t with
time-to-live ttl returns the stored value from get while now - t <= ttl
(ttl being ttl || defaultTTL), and once now - t > ttl the entry is deleted
and get returns null; has(key) is true exactly when get(key) would return
non-null; and a key never stored, or deleted, yields null. -/
theorem cache_ttl_amended {V : Type} (sizeOf : V → Nat) (c : LRUCache V)
    (k : String) (v : V) (ttl0 : Option Int) (t now : Int)
    (hmax : 0 < c.maxSize)
    (hlast : ∀ e ∈ c.entries, e.2.lastAccessed ≤ t)
    (hmem : ¬ (c.maxMemoryUsage * 1048576 < totalMemory sizeOf
      (cacheCleanup t (adel c.entries k ++
        [(k, { data := v, timestamp := t, ttl := orFalsyInt ttl0 c.defaultTTL
               accessCount := 0, lastAccessed := t })]))))
    (ht : t ≤ now) :
    ((now - t ≤ orFalsyInt ttl0 c.defaultTTL →
        (cacheGet now k (cacheSet sizeOf t k v ttl0 c)).fst = some v) ∧
      (orFalsyInt ttl0 c.defaultTTL < now - t →
        (cacheGet now k (cacheSet sizeOf t k v ttl0 c)).fst = none ∧
        alookup (cacheGet now k (cacheSet sizeOf t k v ttl0 c)).snd.entries k
          = none)) ∧
    (∀ (c2 : LRUCache V) (k2 : String) (now2 : Int),
      (cacheHas now2 k2 c2).fst = true ↔ (cacheGet now2 k2 c2).fst ≠ none) ∧
    (∀ (c2 : LRUCache V) (k2 : String) (now2 : Int),
      alookup c2.entries k2 = none → (cacheGet now2 k2 c2).fst = none) ∧
    (∀ (c2 : LRUCache V) (k2 : String) (now2 : Int),
      (cacheGet now2 k2 (cacheDelete k2 c2)).fst = none) := by
  refine ⟨⟨?_, ?_⟩, ?_, ?_, ?_⟩
  · intro hfresh
    have hT : 0 ≤ orFalsyInt ttl0 c.defaultTTL := by omega
    have hlook := cacheSet_lookup sizeOf c k v ttl0 t hmax hlast hmem hT
    exact cacheGet_of_lookup_fresh now k _ _ hlook (by simpa using not_lt.mpr hfresh)
  · intro hexp
    by_cases hT : 0 ≤ orFalsyInt ttl0 c.defaultTTL
    · have hlook := cacheSet_lookup sizeOf c k v ttl0 t hmax hlast hmem hT
      have h2 := cacheGet_of_lookup_expired now k _ _ hlook (by simpa using hexp)
      refine ⟨h2.1, ?_⟩
      rw [h2.2]
      exact alookup_adel_self _ _
    · have hlook := cacheSet_lookup_expired sizeOf c k v ttl0 t (by omega)
      unfold cacheGet
      rw [hlook]
      exact ⟨rfl, hlook⟩
  · intro c2 k2 now2
    cases h : alookup c2.entries k2 with
    | none => simp [cacheHas, cacheGet, h]
    | some item =>
      by_cases hexp : item.ttl < now2 - item.timestamp
      · simp [cacheHas, cacheGet, h, hexp]
      · simp [cacheHas, cacheGet, h, hexp]
  · intro c2 k2 now2 hnone
    unfold cacheGet
    rw [hnone]
  · intro c2 k2 now2
    unfold cacheGet
    rw [show alookup (cacheDelete k2 c2).entries k2 = none from
      alookup_adel_self _ _]

/-- Witness for C6 amended at a concrete input: a unit value stored at time
0 in a fresh default cache is still returned by get at time 100. -/
theorem cache_ttl_amended_witness :
    (0 < (mkCache Unit none none none).maxSize) ∧
    ((100:Int) - 0 ≤ orFalsyInt none (mkCache Unit none none none).defaultTTL) ∧
    (cacheGet 100 "k" (cacheSet (fun _ : Unit => 10) 0 "k" () none
      (mkCache Unit none none none))).fst = some () := by
  have h := cache_ttl_amended (fun _ : Unit => 10) (mkCache Unit none none none)
    "k" () none 0 100 (by decide) (by simp [mkCache]) (by decide) (by decide)
  exact ⟨by decide, by decide, h.1.1 (by decide)⟩

/-- C7: after every set the number of cached entries is at most maxSize;
when eviction runs with a well-formed map (distinct keys) it removes
exactly min(count, size) entries, and every evicted entry's lastAccessed is
at most every survivor's (least recently used first); a successful get
re-stamps the entry with lastAccessed = now, incremented accessCount, and
reinserts it at the most-recently-used end; and an entry read just before
an eviction (all other lastAccessed not newer) survives any eviction that
removes fewer entries than the whole map. -/
theorem cache_lru_invariants {V : Type} :
    (∀ (sizeOf : V → Nat) (now : Int) (k : String) (v : V) (ttl0 : Option Int)
        (c : LRUCache V),
      (cacheSet sizeOf now k v ttl0 c).entries.length ≤ c.maxSize) ∧
    (∀ (count : Nat) (l : List (String × CacheItem V)),
      ((l.map Prod.fst).Nodup → count ≤ l.length →
        (evictLRU count l).length = l.length - count) ∧
      ((l.map Prod.fst).Nodup →
        ∀ e ∈ l, e ∉ evictLRU count l →
          ∀ e2 ∈ evictLRU count l, e.2.lastAccessed ≤ e2.2.lastAccessed)) ∧
    (∀ (now : Int) (k : String) (c : LRUCache V) (item : CacheItem V),
      alookup c.entries k = some item → ¬ (item.ttl < now - item.timestamp) →
      (cacheGet now k c).snd.entries
        = adel c.entries k ++
            [(k, { item with accessCount := item.accessCount + 1, lastAccessed := now })]) ∧
    (∀ (now : Int) (k : String) (c : LRUCache V) (item : CacheItem V)
        (count : Nat),
      alookup c.entries k = some item → ¬ (item.ttl < now - item.timestamp) →
      (∀ e ∈ c.entries, e.2.lastAccessed ≤ now) →
      count ≤ (adel c.entries k).length →
      alookup (evictLRU count (cacheGet now k c).snd.entries) k
        = some { item with accessCount := item.accessCount + 1, lastAccessed := now }) := by
  refine ⟨?_, ?_, ?_, ?_⟩
  · intro sizeOf now k v ttl0 c
    simp only [cacheSet, evictIfNecessary]
    split <;> split
    all_goals
      first
        | exact le_trans (evictLRU_length_le _ _) (by omega)
        | omega
  · intro count l
    exact ⟨fun hnodup hcount => evictLRU_length_eq count l hnodup hcount,
      fun hnodup => evictLRU_lru_first count l hnodup⟩
  · intro now k c item hlook hfresh
    simp only [cacheGet, hlook]
    rw [if_neg hfresh]
  · intro now k c item count hlook hfresh hlast hcount
    have hset : (cacheGet now k c).snd.entries
        = adel c.entries k ++
            [(k, { item with accessCount := item.accessCount + 1, lastAccessed := now })] := by
      simp only [cacheGet, hlook]
      rw [if_neg hfresh]
    rw [hset]
    apply evictLRU_keeps_last
    · exact adel_keys _ _
    · intro e he
      exact hlast e (List.mem_of_mem_filter he)
    · exact hcount

/-- A concrete cache item used to instantiate C7. -/
def demoItem : CacheItem Unit :=
  { data := (), timestamp := 0, ttl := 1000, accessCount := 0, lastAccessed := 3 }

/-- Witness for C7 at a concrete input: setting into a fresh default cache
respects the size bound, and evicting 1 of 1 distinct-keyed entries leaves
0. -/
theorem cache_lru_invariants_witness :
    (cacheSet (fun _ : Unit => 10) 0 "a" () none
      (mkCache Unit none none none)).entries.length
        ≤ (mkCache Unit none none none).maxSize ∧
    ((([("a", demoItem)] : List (String × CacheItem Unit)).map Prod.fst).Nodup ∧
      1 ≤ ([("a", demoItem)] : List (String × CacheItem Unit)).length) ∧
    (evictLRU 1 [("a", demoItem)]).length
      = ([("a", demoItem)] : List (String × CacheItem Unit)).length - 1 := by
  have h := cache_lru_invariants (V := Unit)
  refine ⟨h.1 _ 0 "a" () none _, ⟨by decide, by decide⟩, ?_⟩
  exact (h.2.1 1 [("a", demoItem)]).1 (by decide) (by decide)

/-- A JavaScript Date value, as the broken-down UTC fields that
Date.prototype.toISOString prints. This avoids calendar arithmetic: the
JSON round trip never needs the epoch-millisecond value. -/
structure DateRec where
  year : Nat
  month : Nat
  day : Nat
  hour : Nat
  minute : Nat
  second : Nat
  millis : Nat
deriving DecidableEq, Repr

/-- The fields every Date printed by toISOString in its standard
four-digit-year range satisfies. -/
def DateRec.Valid (d : DateRec) : Prop :=
  d.year ≤ 9999 ∧ 1 ≤ d.month ∧ d.month ≤ 12 ∧ 1 ≤ d.day ∧ d.day ≤ 31 ∧
  d.hour ≤ 23 ∧ d.minute ≤ 59 ∧ d.second ≤ 59 ∧ d.millis ≤ 999

/-- The decimal digit character of n mod 10. -/
def digitChar (n : Nat) : Char := Char.ofNat (48 + n % 10)

theorem digitChar_toNat (n : Nat) : (digitChar n).toNat = 48 + n % 10 := by
  unfold digitChar
  have h : n % 10 < 10 := Nat.mod_lt _ (by norm_num)
  set m := n % 10 with hm
  interval_cases m <;> decide

theorem digitChar_isDigit (n : Nat) : (digitChar n).isDigit = true := by
  unfold digitChar
  have h : n % 10 < 10 := Nat.mod_lt _ (by norm_num)
  set m := n % 10 with hm
  interval_cases m <;> decide

/-- Two-digit zero-padded decimal representation. -/
def pad2 (n : Nat) : List Char := [digitChar (n / 10), digitChar n]

/-- Three-digit zero-padded decimal representation. -/
def pad3 (n : Nat) : List Char := [digitChar (n / 100), digitChar (n / 10), digitChar n]

/-- Four-digit zero-padded decimal representation. -/
def pad4 (n : Nat) : List Char :=
  [digitChar (n / 1000), digitChar (n / 100), digitChar (n / 10), digitChar n]

/-- Date.prototype.toISOString / toJSON: the string JSON.stringify writes
for a Date value: YYYY-MM-DDTHH:MM:SS.mmmZ. -/
def toISO (d : DateRec) : String :=
  ⟨pad4 d.year ++ ['-'] ++ pad2 d.month ++ ['-'] ++ pad2 d.day ++ ['T']
    ++ pad2 d.hour ++ [':'] ++ pad2 d.minute ++ [':'] ++ pad2 d.second
    ++ ['.'] ++ pad3 d.millis ++ ['Z']⟩

/-- Parse two decimal digits. -/
def parse2 (a b : Char) : Option Nat :=
  if a.isDigit && b.isDigit then some ((a.toNat - 48) * 10 + (b.toNat - 48))
  else none

/-- Parse three decimal digits. -/
def parse3 (a b c : Char) : Option Nat :=
  if a.isDigit && b.isDigit && c.isDigit then
    some ((a.toNat - 48) * 100 + (b.toNat - 48) * 10 + (c.toNat - 48))
  else none

/-- Parse four decimal digits. -/
def parse4 (a b c d : Char) : Option Nat :=
  if a.isDigit && b.isDigit && c.isDigit && d.isDigit then
    some ((a.toNat - 48) * 1000 + (b.toNat - 48) * 100 + (c.toNat - 48) * 10
      + (d.toNat - 48))
  else none

/-- The host `new Date(string)` validity check and parse, restricted to the
strict ISO profile YYYY-MM-DDTHH:MM:SS.mmmZ that JSON.stringify emits for
dates (modern engines parse exactly the ISO-8601 profile here; any other
shape, or an out-of-range field, yields an Invalid Date). -/
def parseISO (s : String) : Option DateRec :=
  match s.data with
  | [y1, y2, y3, y4, c1, mo1, mo2, c2, d1, d2, c3, h1, h2, c4, mi1, mi2, c5,
      se1, se2, c6, ms1, ms2, ms3, c7] =>
    if c1 = '-' ∧ c2 = '-' ∧ c3 = 'T' ∧ c4 = ':' ∧ c5 = ':' ∧ c6 = '.' ∧ c7 = 'Z' then
      match parse4 y1 y2 y3 y4, parse2 mo1 mo2, parse2 d1 d2, parse2 h1 h2,
          parse2 mi1 mi2, parse2 se1 se2, parse3 ms1 ms2 ms3 with
      | some y, some mo, some d, some h, some mi, some se, some ms =>
        if 1 ≤ mo ∧ mo ≤ 12 ∧ 1 ≤ d ∧ d ≤ 31 ∧ h ≤ 23 ∧ mi ≤ 59 ∧ se ≤ 59 then
          some ⟨y, mo, d, h, mi, se, ms⟩
        else none
      | _, _, _, _, _, _, _ => none
    else none
  | _ => none

/-- The 11-character window of the regex /\d{4}-\d{2}-\d{2}T/ at one
position. -/
def dateLikeAt : List Char → Bool
  | y1 :: y2 :: y3 :: y4 :: c1 :: m1 :: m2 :: c2 :: d1 :: d2 :: c3 :: _ =>
    y1.isDigit && y2.isDigit && y3.isDigit && y4.isDigit && (c1 == '-')
      && m1.isDigit && m2.isDigit && (c2 == '-') && d1.isDigit && d2.isDigit
      && (c3 == 'T')
  | _ => false

/-- The unanchored regex test /\d{4}-\d{2}-\d{2}T/.test(value): the pattern
may match at any position of the string. -/
def dateLike : List Char → Bool
  | [] => false
  | c :: rest => dateLikeAt (c :: rest) || dateLike rest

/-- An in-memory JavaScript value as the store state sees it: JSON scalars,
arrays and objects, plus Date objects. -/
inductive JsValue where
  | vnull
  | vbool (b : Bool)
  | vnum (q : Rat)
  | vstr (s : String)
  | vdate (d : DateRec)
  | varr (elems : List JsValue)
  | vobj (fields : List (String × JsValue))

/-- The JSON.parse reviver of reviveDates (src/store/AppStore.tsx) applied
to one string value: when the regex matches and `new Date(value)` is valid,
the string becomes a Date; otherwise it stays a string. -/
def reviveString (s : String) : JsValue :=
  if dateLike s.data then
    match parseISO s with
    | some d => JsValue.vdate d
    | none => JsValue.vstr s
  else JsValue.vstr s

mutual

/-- The save-then-load round trip of the persistence effect:
JSON.parse(JSON.stringify(state), reviveDates-reviver). stringify turns a
Date into its toISOString text (Date.prototype.toJSON); the reviver then
turns every string matching the date regex that parses as a valid date
into a Date, anywhere in the snapshot. Scalars pass through; arrays and
objects recurse. -/
def roundTrip : JsValue → JsValue
  | .vnull => .vnull
  | .vbool b => .vbool b
  | .vnum q => .vnum q
  | .vstr s => reviveString s
  | .vdate d => reviveString (toISO d)
  | .varr l => .varr (roundTripList l)
  | .vobj fs => .vobj (roundTripObj fs)

/-- Round trip of an array's elements. -/
def roundTripList : List JsValue → List JsValue
  | [] => []
  | v :: vs => roundTrip v :: roundTripList vs

/-- Round trip of an object's fields (keys are untouched by the reviver's
value transformation). -/
def roundTripObj : List (String × JsValue) → List (String × JsValue)
  | [] => []
  | (key, v) :: fs => (key, roundTrip v) :: roundTripObj fs

end

theorem parse2_pad2 (n : Nat) (h : n < 100) :
    parse2 (digitChar (n / 10)) (digitChar n) = some n := by
  unfold parse2
  rw [if_pos (by simp [digitChar_isDigit])]
  have h1 := digitChar_toNat (n / 10)
  have h2 := digitChar_toNat n
  rw [h1, h2]
  congr 1
  omega

theorem parse3_pad3 (n : Nat) (h : n < 1000) :
    parse3 (digitChar (n / 100)) (digitChar (n / 10)) (digitChar n) = some n := by
  unfold parse3
  rw [if_pos (by simp [digitChar_isDigit])]
  have h1 := digitChar_toNat (n / 100)
  have h2 := digitChar_toNat (n / 10)
  have h3 := digitChar_toNat n
  rw [h1, h2, h3]
  congr 1
  omega

theorem parse4_pad4 (n : Nat) (h : n < 10000) :
    parse4 (digitChar (n / 1000)) (digitChar (n / 100)) (digitChar (n / 10))
      (digitChar n) = some n := by
  unfold parse4
  rw [if_pos (by simp [digitChar_isDigit])]
  have h1 := digitChar_toNat (n / 1000)
  have h2 := digitChar_toNat (n / 100)
  have h3 := digitChar_toNat (n / 10)
  have h4 := digitChar_toNat n
  rw [h1, h2, h3, h4]
  congr 1
  omega

theorem parseISO_toISO (d : DateRec) (hv : d.Valid) :
    parseISO (toISO d) = some d := by
  obtain ⟨hy, hm1, hm2, hd1, hd2, hh, hmi, hse, hms⟩ := hv
  simp only [toISO, pad4, pad3, pad2, List.cons_append, List.nil_append]
  simp only [parseISO]
  rw [if_pos (by simp)]
  rw [parse4_pad4 d.year (by omega), parse2_pad2 d.month (by omega),
    parse2_pad2 d.day (by omega), parse2_pad2 d.hour (by omega),
    parse2_pad2 d.minute (by omega), parse2_pad2 d.second (by omega),
    parse3_pad3 d.millis (by omega)]
  simp [hm1, hm2, hd1, hd2, hh, hmi, hse]

theorem dateLike_toISO (d : DateRec) : dateLike (toISO d).data = true := by
  simp only [toISO, pad4, pad3, pad2, List.cons_append, List.nil_append]
  simp only [dateLike, dateLikeAt, digitChar_isDigit]
  simp

theorem roundTrip_vdate_eq (d : DateRec) (hv : d.Valid) :
    roundTrip (JsValue.vdate d) = JsValue.vdate d := by
  simp only [roundTrip, reviveString]
  rw [if_pos (dateLike_toISO d), parseISO_toISO d hv]

/-- C9: the localStorage persistence round trip is not the identity on
arbitrary states. A string value is converted to a Date exactly when the
regex matches it somewhere and it parses as a valid date; every Date field
(in toISOString's four-digit-year range) survives save-then-load as the
same Date, also inside an object; but a free-text description field whose
text is a date-like string is converted to a Date instead of being
restored as the original string. -/
theorem reviveDates_roundtrip :
    (∀ s : String, (∃ e, roundTrip (JsValue.vstr s) = JsValue.vdate e) ↔
      (dateLike s.data = true ∧ (parseISO s).isSome = true)) ∧
    (∀ d : DateRec, d.Valid → roundTrip (JsValue.vdate d) = JsValue.vdate d) ∧
    (∀ (k : String) (d : DateRec), d.Valid →
      roundTrip (JsValue.vobj [(k, JsValue.vdate d)])
        = JsValue.vobj [(k, JsValue.vdate d)]) ∧
    (roundTrip (JsValue.vobj [("description", JsValue.vstr "2026-05-04T10:20:30.123Z")])
        = JsValue.vobj [("description", JsValue.vdate ⟨2026, 5, 4, 10, 20, 30, 123⟩)] ∧
      roundTrip (JsValue.vobj [("description", JsValue.vstr "2026-05-04T10:20:30.123Z")])
        ≠ JsValue.vobj [("description", JsValue.vstr "2026-05-04T10:20:30.123Z")]) := by
  have h4a : roundTrip (JsValue.vobj [("description",
      JsValue.vstr "2026-05-04T10:20:30.123Z")])
      = JsValue.vobj [("description", JsValue.vdate ⟨2026, 5, 4, 10, 20, 30, 123⟩)] := by
    rfl
  refine ⟨?_, roundTrip_vdate_eq, ?_, h4a, ?_⟩
  · intro s
    by_cases hd : dateLike s.data = true
    · cases hp : parseISO s with
      | none =>
        constructor
        · rintro ⟨e, he⟩
          simp only [roundTrip, reviveString, hd, if_true, hp] at he
          exact JsValue.noConfusion he
        · rintro ⟨_, hsome⟩
          simp at hsome
      | some d0 =>
        constructor
        · intro _
          exact ⟨hd, rfl⟩
        · intro _
          refine ⟨d0, ?_⟩
          simp only [roundTrip, reviveString, hd, if_true, hp]
    · have hrev : roundTrip (JsValue.vstr s) = JsValue.vstr s := by
        simp only [roundTrip, reviveString]
        rw [if_neg hd]
      constructor
      · rintro ⟨e, he⟩
        rw [hrev] at he
        exact JsValue.noConfusion he
      · rintro ⟨hdd, _⟩
        exact absurd hdd hd
  · intro k d hv
    simp only [roundTrip, roundTripObj]
    rw [show reviveString (toISO d) = JsValue.vdate d from roundTrip_vdate_eq d hv]
  · intro h
    rw [h4a] at h
    injection h with hl
    injection hl with hhead htail
    injection hhead with hk hv
    exact JsValue.noConfusion hv

/-- Witness for C9 at a concrete input: the Date 2026-05-04T10:20:30.123Z
survives the round trip. -/
theorem reviveDates_roundtrip_witness :
    (⟨2026, 5, 4, 10, 20, 30, 123⟩ : DateRec).Valid ∧
    roundTrip (JsValue.vdate ⟨2026, 5, 4, 10, 20, 30, 123⟩)
      = JsValue.vdate ⟨2026, 5, 4, 10, 20, 30, 123⟩ := by
  have hv : (⟨2026, 5, 4, 10, 20, 30, 123⟩ : DateRec).Valid := by
    simp only [DateRec.Valid]
    omega
  exact ⟨hv, reviveDates_roundtrip.2.1 _ hv⟩

end ShivAccounts





